import Mathlib

/-!
Address range table decoding (`lldwarf/aranges.c`)

A shallow embedding of `LLDwarf_ParseArangeTableHeader` and
`LLDwarf_ParseArangeTable`, and theorems about them.

Conventions of the embedding:

* a `Py_buffer` is the list of its bytes, `buffer->len` is the length of the list;
* `Py_ssize_t *offset` is threaded explicitly: every operation returns its result
  together with the offset it leaves behind, also when it fails;
* `segment_size` and `address_size` are `Py_ssize_t`, modelled as `Int` (they can be
  negative);
* the host objects built by the C code (`PyObject_New`, `PyDict_New`, `PyList_New`,
  `PyList_Append`) are plain values here and their allocation always succeeds;
* a `NULL` return with a pending exception is `Except.error`.
-/

namespace LLDwarf

/-- One byte of the buffer. -/
abbrev Byte := Fin 256

/-- The bytes of a `Py_buffer`. -/
abbrev Py_buffer := List Byte

/-- The error kinds of the decoders. `Truncated` carries the description when the raising
code gives one; `UnsupportedSize` always carries one. -/
inductive Error where
  | Truncated (description : Option String)
  | UnsupportedSize (description : String)
  deriving DecidableEq, Repr

deriving instance DecidableEq for Except

/-- Little-endian value of a run of bytes. -/
def le_value : List Byte → Nat
  | [] => 0
  | b :: bs => b.val + 256 * le_value bs

/-- Modelled from the spec: the byte cursor behind `read_u8` .. `read_u64` (declared in
`lldwarf.h`, which is not part of the sources here). It reads `size` bytes at `offset`
as a little-endian unsigned integer and advances the offset by `size`; it fails with
`Truncated` when fewer than `size` bytes remain. The spec leaves the offset after a
failure unspecified; here it is left where it was. -/
def read_bytes (buffer : Py_buffer) (offset size : Nat) : Except Error Nat × Nat :=
  if offset + size ≤ buffer.length then
    (.ok (le_value ((buffer.drop offset).take size)), offset + size)
  else
    (.error (.Truncated none), offset)

/-- Modelled from the spec: 8-bit read of the byte cursor. -/
def read_u8 (buffer : Py_buffer) (offset : Nat) : Except Error Nat × Nat :=
  read_bytes buffer offset 1

/-- Modelled from the spec: 16-bit read of the byte cursor. -/
def read_u16 (buffer : Py_buffer) (offset : Nat) : Except Error Nat × Nat :=
  read_bytes buffer offset 2

/-- Modelled from the spec: 32-bit read of the byte cursor. -/
def read_u32 (buffer : Py_buffer) (offset : Nat) : Except Error Nat × Nat :=
  read_bytes buffer offset 4

/-- Modelled from the spec: 64-bit read of the byte cursor. -/
def read_u64 (buffer : Py_buffer) (offset : Nat) : Except Error Nat × Nat :=
  read_bytes buffer offset 8

/-- The fields of the C struct `ArangeTableHeader`. -/
structure ArangeTableHeader where
  unit_length : Nat
  version : Nat
  debug_info_offset : Nat
  address_size : Nat
  segment_size : Nat
  is_64_bit : Bool
  deriving DecidableEq, Repr

/-- The fields of the C struct `AddressRange`. -/
structure AddressRange where
  segment : Nat
  address : Nat
  length : Nat
  deriving DecidableEq, Repr

/-- The `err:` label of `LLDwarf_ParseArangeTableHeader`: whatever exception is pending is
replaced by the header's own message. -/
def header_err (offset : Nat) : Except Error ArangeTableHeader × Nat :=
  (.error (.Truncated (some "address range table header is truncated")), offset)

/-- `LLDwarf_ParseArangeTableHeader`. -/
def LLDwarf_ParseArangeTableHeader (buffer : Py_buffer) (offset : Nat) :
    Except Error ArangeTableHeader × Nat :=
  match read_u32 buffer offset with
  | (.error _, o) => header_err o
  | (.ok length, o1) =>
    let is_64_bit : Bool := length == 0xffffffff
    match (if is_64_bit then read_u64 buffer o1 else (.ok length, o1)) with
    | (.error _, o) => header_err o
    | (.ok unit_length, o2) =>
      match read_u16 buffer o2 with
      | (.error _, o) => header_err o
      | (.ok version, o3) =>
        match (if is_64_bit then read_u64 buffer o3 else read_u32 buffer o3) with
        | (.error _, o) => header_err o
        | (.ok debug_info_offset, o4) =>
          match read_u8 buffer o4 with
          | (.error _, o) => header_err o
          | (.ok address_size, o5) =>
            match read_u8 buffer o5 with
            | (.error _, o) => header_err o
            | (.ok segment_size, o6) =>
              (.ok { unit_length := unit_length, version := version,
                     debug_info_offset := debug_info_offset,
                     address_size := address_size, segment_size := segment_size,
                     is_64_bit := is_64_bit }, o6)

/-- The first `switch` of the loop body: the segment selector. -/
def read_segment (buffer : Py_buffer) (offset : Nat) (segment_size : Int) :
    Except Error Nat × Nat :=
  if segment_size = 4 then read_u32 buffer offset
  else if segment_size = 8 then read_u64 buffer offset
  else if segment_size = 0 then (.ok 0, offset)
  else (.error (.UnsupportedSize ("unsupported segment size " ++ toString segment_size)), offset)

/-- The second `switch` of the loop body: address, then length. -/
def read_address_length (buffer : Py_buffer) (offset : Nat) (address_size : Int) :
    Except Error (Nat × Nat) × Nat :=
  if address_size = 4 then
    match read_u32 buffer offset with
    | (.error e, o) => (.error e, o)
    | (.ok address, o1) =>
      match read_u32 buffer o1 with
      | (.error e, o) => (.error e, o)
      | (.ok length, o2) => (.ok (address, length), o2)
  else if address_size = 8 then
    match read_u64 buffer offset with
    | (.error e, o) => (.error e, o)
    | (.ok address, o1) =>
      match read_u64 buffer o1 with
      | (.error e, o) => (.error e, o)
      | (.ok length, o2) => (.ok (address, length), o2)
  else (.error (.UnsupportedSize ("unsupported address size " ++ toString address_size)), offset)

/-- How one pass through the body of `for (;;)` ends. -/
inductive Iteration where
  | fail (e : Error) (offset : Nat)
  | stop (offset : Nat)
  | append (arange : AddressRange) (offset : Nat)
  deriving DecidableEq, Repr

/-- One pass through the body of the `for (;;)` loop of `LLDwarf_ParseArangeTable`. -/
def ParseArangeTable_iteration (buffer : Py_buffer) (offset : Nat)
    (segment_size address_size : Int) : Iteration :=
  match read_segment buffer offset segment_size with
  | (.error e, o) => .fail e o
  | (.ok segment, o1) =>
    match read_address_length buffer o1 address_size with
    | (.error e, o) => .fail e o
    | (.ok (address, length), o2) =>
      if segment = 0 ∧ address = 0 ∧ length = 0 then .stop o2
      else .append { segment := segment, address := address, length := length } o2

/-- The `for (;;)` loop, run for at most `fuel` iterations; `none` when the iterations
are used up before the loop has ended. -/
def ParseArangeTable_loop : Nat → Py_buffer → Nat → Int → Int → List AddressRange →
    Option (Except Error (List AddressRange) × Nat)
  | 0, _, _, _, _, _ => none
  | fuel + 1, buffer, offset, segment_size, address_size, arange_table =>
    match ParseArangeTable_iteration buffer offset segment_size address_size with
    | .fail e o => some (.error e, o)
    | .stop o => some (.ok arange_table, o)
    | .append arange o =>
      ParseArangeTable_loop fuel buffer o segment_size address_size (arange_table ++ [arange])

/-- `LLDwarf_ParseArangeTable`: the loop started on the empty list, with one more iteration
allowed than bytes remain (the loop never needs them all, see `loop_result`). -/
def LLDwarf_ParseArangeTable (buffer : Py_buffer) (offset : Nat)
    (segment_size address_size : Int) : Option (Except Error (List AddressRange) × Nat) :=
  ParseArangeTable_loop (buffer.length - offset + 1) buffer offset segment_size address_size []

/-! ## The writer of the round-trip claims -/

/-- The `width` little-endian bytes of `value`. -/
def le_bytes : Nat → Nat → List Byte
  | 0, _ => []
  | width + 1, value => ⟨value % 256, Nat.mod_lt _ (by decide)⟩ :: le_bytes width (value / 256)

/-- One record as the writer lays it out: segment (if present), address, length. -/
def encode_record (segment_size address_size : Nat) (r : AddressRange) : List Byte :=
  le_bytes segment_size r.segment ++ le_bytes address_size r.address ++
    le_bytes address_size r.length

/-- The all-zero terminator record. -/
def terminator (segment_size address_size : Nat) : List Byte :=
  List.replicate (segment_size + 2 * address_size) 0

/-- A body: the records in order, then the terminator. -/
def encode_body (segment_size address_size : Nat) : List AddressRange → List Byte
  | [] => terminator segment_size address_size
  | r :: records =>
    encode_record segment_size address_size r ++ encode_body segment_size address_size records

/-- The fields of a record fit the widths of the table. -/
def fits (segment_size address_size : Nat) (r : AddressRange) : Prop :=
  r.segment < 256 ^ segment_size ∧ r.address < 256 ^ address_size ∧
    r.length < 256 ^ address_size

/-- The record held by the first bytes of `bytes`, for the given widths. -/
def record_of_bytes (segment_size address_size : Nat) (bytes : List Byte) : AddressRange :=
  { segment := le_value (bytes.take segment_size)
    address := le_value ((bytes.drop segment_size).take address_size)
    length := le_value ((bytes.drop (segment_size + address_size)).take address_size) }

/-- The outcome of a decode without the offset. -/
def outcome {α : Type} (r : Option (Except Error α × Nat)) : Option (Except Error α) :=
  r.map Prod.fst

/-- The unsigned little-endian value of the `width` bytes of the buffer at `offset`. -/
def value_at (buffer : Py_buffer) (offset width : Nat) : Nat :=
  le_value ((buffer.drop offset).take width)

/-- The bound on the number of loop iterations: the bytes remaining at `offset` divided by
the size of a record, plus one. The quotient counts as 0 when the record size is not
positive. -/
def iteration_bound (buffer : Py_buffer) (offset : Nat) (segment_size address_size : Int) :
    Nat :=
  (((buffer.length - offset : Nat) : Int) / (segment_size + 2 * address_size)).toNat + 1

/-- A header as the writer lays it out: the length (after the escape `0xffffffff` in the
64-bit format), the version, the debug-info offset, then the two size bytes. -/
def encode_header (h : ArangeTableHeader) : List Byte :=
  if h.is_64_bit then
    le_bytes 4 0xffffffff ++ le_bytes 8 h.unit_length ++ le_bytes 2 h.version ++
      le_bytes 8 h.debug_info_offset ++ le_bytes 1 h.address_size ++ le_bytes 1 h.segment_size
  else
    le_bytes 4 h.unit_length ++ le_bytes 2 h.version ++ le_bytes 4 h.debug_info_offset ++
      le_bytes 1 h.address_size ++ le_bytes 1 h.segment_size

/-- The fields of a header fit the widths of its format; in the 32-bit format the length
is not the escape value. -/
def header_fits (h : ArangeTableHeader) : Prop :=
  h.version < 256 ^ 2 ∧ h.address_size < 256 ^ 1 ∧ h.segment_size < 256 ^ 1 ∧
    (if h.is_64_bit then h.unit_length < 256 ^ 8 ∧ h.debug_info_offset < 256 ^ 8
     else h.unit_length < 256 ^ 4 ∧ h.unit_length ≠ 0xffffffff ∧
       h.debug_info_offset < 256 ^ 4)

/-- A complete header is present at `offset`: 24 bytes when the first four are
`0xffffffff`, 12 bytes otherwise. -/
def header_complete (buffer : Py_buffer) (offset : Nat) : Prop :=
  offset + (if value_at buffer offset 4 = 0xffffffff then 24 else 12) ≤ buffer.length

end LLDwarf

/-!
Error translation (`libdrgn/python/error.c`)

The state of the host that the four functions read and write is explicit: the
thread-state dictionary and the error indicator. Host calls are small functions of their
own, so that each function below follows its C source statement by statement. Host calls
that fail only when memory runs out (`PyThreadState_GetDict`, `_PyUnicode_FromId`,
`PyDict_SetItem`, `drgn_error_create`, `drgn_error_format`) succeed here; the branches
of the source that handle their failure are kept. What the host does with the values it
is handed (converting an object to text, building an exception from `errno`) is a
parameter of the function that makes the call.
-/

namespace Drgn

/-- The text a `char *` holds when it points to `s`: a C string ends at its first NUL. -/
def c_str (s : String) : String :=
  String.mk (s.data.takeWhile (fun c => c ≠ Char.ofNat 0))

/-- A `char *` that libdrgn hands over (`err->message`, `err->path`): either the UTF-8
encoding of a text, or bytes that are not valid UTF-8. -/
inductive CString where
  | text (s : String)
  | not_utf8 (bytes : List (Fin 256))
  deriving DecidableEq, Repr

/-- A Python object, as far as `error.c` tells objects apart. -/
inductive PyObject where
  | Py_True
  | Py_False
  | unicode (s : String)
  | os_error (errnum : Int) (filename : Option CString)
  | decode_error (bytes : List (Fin 256))
  | object (id : Nat)
  deriving DecidableEq, Repr

/-- A type object; `error.c` reads only its `tp_name`. -/
structure PyTypeObject where
  tp_name : String
  deriving DecidableEq, Repr

/-- The host exception `MemoryError`. -/
def PyExc_MemoryError : PyTypeObject := ⟨"MemoryError"⟩
/-- The host exception `ValueError`. -/
def PyExc_ValueError : PyTypeObject := ⟨"ValueError"⟩
/-- The host exception `OverflowError`. -/
def PyExc_OverflowError : PyTypeObject := ⟨"OverflowError"⟩
/-- The host exception `RecursionError`. -/
def PyExc_RecursionError : PyTypeObject := ⟨"RecursionError"⟩
/-- The host exception `OSError`. -/
def PyExc_OSError : PyTypeObject := ⟨"OSError"⟩
/-- The host exception `SyntaxError`. -/
def PyExc_SyntaxError : PyTypeObject := ⟨"SyntaxError"⟩
/-- The host exception `LookupError`. -/
def PyExc_LookupError : PyTypeObject := ⟨"LookupError"⟩
/-- The host exception `TypeError`. -/
def PyExc_TypeError : PyTypeObject := ⟨"TypeError"⟩
/-- The host exception `ZeroDivisionError`. -/
def PyExc_ZeroDivisionError : PyTypeObject := ⟨"ZeroDivisionError"⟩
/-- The host exception `Exception`. -/
def PyExc_Exception : PyTypeObject := ⟨"Exception"⟩
/-- The host exception `UnicodeDecodeError`. -/
def PyExc_UnicodeDecodeError : PyTypeObject := ⟨"UnicodeDecodeError"⟩
/-- The exception type `FileFormatError` of the bindings (declared in `drgnpy.h`). -/
def FileFormatError : PyTypeObject := ⟨"FileFormatError"⟩
/-- The exception type `MissingDebugInfoError` of the bindings (declared in `drgnpy.h`). -/
def MissingDebugInfoError : PyTypeObject := ⟨"MissingDebugInfoError"⟩
/-- The exception type `FaultError` of the bindings (declared in `drgnpy.h`). -/
def FaultError : PyTypeObject := ⟨"FaultError"⟩

/-- A pending exception: the three objects `PyErr_Fetch` hands out. -/
structure PyErr where
  exc_type : PyTypeObject
  exc_value : Option PyObject
  exc_traceback : Option PyObject
  deriving DecidableEq, Repr

/-- A dictionary with string keys. -/
abbrev PyDict := List (String × PyObject)

/-- The state of the current thread: its dictionary and its error indicator (`none` when
no exception is pending). -/
structure PyThreadState where
  dict : PyDict
  curexc : Option PyErr
  deriving DecidableEq, Repr

/-- The identifier `PyId_drgn_in_python`. -/
def PyId_drgn_in_python : String := "drgn_in_python"

/-- Host call: the dictionary of the current thread; `none` is `NULL`. -/
def PyThreadState_GetDict (ts : PyThreadState) : Option PyDict := some ts.dict

/-- Host call: `_PyUnicode_FromId`, the string object of an identifier; `none` is `NULL`. -/
def PyUnicode_FromId (id : String) : Option String := some id

/-- Host call: the value under `key`, `none` (`NULL`) when the key is absent; a lookup with
a string key raises nothing. -/
def PyDict_GetItemWithError (dict : PyDict) (key : String) : Option PyObject :=
  dict.lookup key

/-- Host call: store `value` under `key`; `none` is the result `-1`. -/
def PyDict_SetItem (dict : PyDict) (key : String) (value : PyObject) : Option PyDict :=
  some ((key, value) :: dict.filter (fun kv => kv.1 ≠ key))

/-- Host call: `_PyDict_GetItemId`. -/
def PyDict_GetItemId (dict : PyDict) (id : String) : Option PyObject :=
  dict.lookup id

/-- Host call: `_PyDict_SetItemId`. -/
def PyDict_SetItemId (dict : PyDict) (id : String) (value : PyObject) : Option PyDict :=
  PyDict_SetItem dict id value

/-- Host call: whether an exception is pending. -/
def PyErr_Occurred (ts : PyThreadState) : Bool := ts.curexc.isSome

/-- Host call: empty the error indicator. -/
def PyErr_Clear (ts : PyThreadState) : PyThreadState := { ts with curexc := none }

/-- Host call: hand out the pending exception (`none` when `exc_type` is `NULL`) and empty
the error indicator. -/
def PyErr_Fetch (ts : PyThreadState) : Option PyErr × PyThreadState :=
  (ts.curexc, { ts with curexc := none })

/-- Host call: put an exception into the error indicator, replacing what is there. -/
def PyErr_Restore (ts : PyThreadState) (exc : Option PyErr) : PyThreadState :=
  { ts with curexc := exc }

/-- Host call: raise `type` with the text of the C string `message` as its value. The
host decodes the C string as UTF-8; when that fails the call leaves the host's
`UnicodeDecodeError` pending instead. -/
def PyErr_SetString (ts : PyThreadState) (type : PyTypeObject) (message : CString) :
    PyThreadState :=
  match message with
  | .text s => { ts with curexc := some ⟨type, some (.unicode (c_str s)), none⟩ }
  | .not_utf8 bytes =>
    { ts with curexc := some ⟨PyExc_UnicodeDecodeError, some (.decode_error bytes), none⟩ }

/-- Host call: raise `MemoryError`. -/
def PyErr_NoMemory (ts : PyThreadState) : PyThreadState :=
  { ts with curexc := some ⟨PyExc_MemoryError, none, none⟩ }

/-- Host call: `PyErr_SetFromErrnoWithFilename(type, filename)` with `errno` set. The
exception that the host builds from the three and leaves pending is the parameter
`from_errno` (for `OSError` the host selects the class by `errno`, so the type of the
exception can be a subclass of the type passed in). -/
def PyErr_SetFromErrnoWithFilename (from_errno : PyTypeObject → Int → Option CString → PyErr)
    (ts : PyThreadState) (type : PyTypeObject) (errno : Int) (filename : Option CString) :
    PyThreadState :=
  { ts with curexc := some (from_errno type errno filename) }

/-- The error codes `error.c` names, and `unlisted` for every other value of the enum
(which is declared in `drgn.h`). -/
inductive drgn_error_code where
  | DRGN_ERROR_NO_MEMORY
  | DRGN_ERROR_INVALID_ARGUMENT
  | DRGN_ERROR_OVERFLOW
  | DRGN_ERROR_RECURSION
  | DRGN_ERROR_OS
  | DRGN_ERROR_ELF_FORMAT
  | DRGN_ERROR_DWARF_FORMAT
  | DRGN_ERROR_MISSING_DEBUG_INFO
  | DRGN_ERROR_SYNTAX
  | DRGN_ERROR_LOOKUP
  | DRGN_ERROR_FAULT
  | DRGN_ERROR_TYPE
  | DRGN_ERROR_ZERO_DIVISION
  | DRGN_ERROR_OTHER
  | unlisted (value : Nat)
  deriving DecidableEq, Repr

/-- The fields of `struct drgn_error` that `error.c` reads. -/
structure drgn_error where
  code : drgn_error_code
  errnum : Int
  path : Option CString
  message : CString
  deriving DecidableEq, Repr

/-- A non-`NULL` `struct drgn_error *`: the address of the static `drgn_error_python`, or
an error of its own. -/
inductive drgn_error_ptr where
  | static_python
  | heap (e : drgn_error)
  deriving DecidableEq, Repr

/-- The static `drgn_error_python`. -/
def drgn_error_python : drgn_error :=
  { code := .DRGN_ERROR_OTHER, errnum := 0, path := none,
    message := .text "error in Python callback" }

/-- The error a pointer points to. -/
def drgn_error_ptr.deref : drgn_error_ptr → drgn_error
  | .static_python => drgn_error_python
  | .heap e => e

/-- Modelled from the spec: `drgn_error_create` of libdrgn, which is not part of the
sources here and which the spec does not describe; taken by its declaration, a new error
with the given code and message. -/
def drgn_error_create (code : drgn_error_code) (message : String) : drgn_error_ptr :=
  .heap { code := code, errnum := 0, path := none, message := .text message }

/-- Modelled from the spec: `drgn_error_format` of libdrgn, which is not part of the
sources here and which the spec does not describe; taken by its declaration, a new error
with the given code and the formatted message (the caller formats). -/
def drgn_error_format (code : drgn_error_code) (formatted : String) : drgn_error_ptr :=
  .heap { code := code, errnum := 0, path := none, message := .text formatted }

/-- `set_drgn_in_python`. -/
def set_drgn_in_python (ts : PyThreadState) : Bool × PyThreadState :=
  match PyThreadState_GetDict ts with
  | none => (false, ts)
  | some dict =>
    match PyUnicode_FromId PyId_drgn_in_python with
    | none => (false, PyErr_Clear ts)
    | some key =>
      let value := PyDict_GetItemWithError dict key
      if value = some .Py_True then (false, ts)
      else if value = none ∧ PyErr_Occurred ts = true then (false, PyErr_Clear ts)
      else
        match PyDict_SetItem dict key .Py_True with
        | none => (false, PyErr_Clear ts)
        | some dict2 => (true, { ts with dict := dict2 })

/-- `clear_drgn_in_python`. -/
def clear_drgn_in_python (ts : PyThreadState) : PyThreadState :=
  match PyErr_Fetch ts with
  | (exc, ts1) =>
    let ts2 : PyThreadState :=
      match PyThreadState_GetDict ts1 with
      | none => ts1
      | some dict =>
        match PyDict_SetItemId dict PyId_drgn_in_python .Py_False with
        | none => ts1
        | some dict2 => { ts1 with dict := dict2 }
    PyErr_Restore ts2 exc

/-- Host calls: `PyObject_Str` followed by `PyUnicode_AsUTF8`, a pointer to the UTF-8 text
of an object. What the two calls do on an object is the parameter `str_utf8`: the text, or,
when one of them fails, the exception it raises. A failed call returns `NULL` (`none`) and
leaves its exception in the error indicator. -/
def PyObject_Str_AsUTF8 (str_utf8 : PyObject → Except PyErr String) (ts : PyThreadState)
    (v : PyObject) : Option String × PyThreadState :=
  match str_utf8 v with
  | .ok text => (some text, ts)
  | .error raised => (none, { ts with curexc := some raised })

/-- `drgn_error_from_python`. `type` and `message` are `char *`: `message[0]` and `%s` see
the text up to the first NUL. -/
def drgn_error_from_python (str_utf8 : PyObject → Except PyErr String)
    (ts : PyThreadState) : Option drgn_error_ptr × PyThreadState :=
  match PyErr_Fetch ts with
  | (none, ts1) => (none, ts1)
  | (some exc, ts1) =>
    let in_python : Bool :=
      match PyThreadState_GetDict ts1 with
      | none => false
      | some dict => PyDict_GetItemId dict PyId_drgn_in_python = some .Py_True
    if in_python then (some .static_python, PyErr_Restore ts1 (some exc))
    else
      let type := c_str exc.exc_type.tp_name
      let read : Option String × PyThreadState :=
        match exc.exc_value with
        | some exc_value => PyObject_Str_AsUTF8 str_utf8 ts1 exc_value
        | none => (some "", ts1)
      match read with
      | (none, ts2) =>
        (some (drgn_error_format .DRGN_ERROR_OTHER (type ++ ": <exception str() failed>")),
          ts2)
      | (some message, ts2) =>
        if c_str message ≠ "" then
          (some (drgn_error_format .DRGN_ERROR_OTHER (type ++ ": " ++ c_str message)), ts2)
        else (some (drgn_error_create .DRGN_ERROR_OTHER type), ts2)

/-- What `set_drgn_error` leaves behind: the pointer it returns (`none` is `NULL`), the
thread state, and whether `drgn_error_destroy` was called on the error. -/
structure set_drgn_error_result where
  ret : Option PyObject
  ts : PyThreadState
  destroyed : Bool
  deriving DecidableEq, Repr

/-- `set_drgn_error`. The parameter `from_errno` is the host's part of
`PyErr_SetFromErrnoWithFilename`. -/
def set_drgn_error (from_errno : PyTypeObject → Int → Option CString → PyErr)
    (err : drgn_error_ptr) (ts : PyThreadState) : set_drgn_error_result :=
  if err = .static_python then { ret := none, ts := ts, destroyed := false }
  else
    let e := err.deref
    let ts2 : PyThreadState :=
      match e.code with
      | .DRGN_ERROR_NO_MEMORY => PyErr_NoMemory ts
      | .DRGN_ERROR_INVALID_ARGUMENT => PyErr_SetString ts PyExc_ValueError e.message
      | .DRGN_ERROR_OVERFLOW => PyErr_SetString ts PyExc_OverflowError e.message
      | .DRGN_ERROR_RECURSION => PyErr_SetString ts PyExc_RecursionError e.message
      | .DRGN_ERROR_OS =>
        PyErr_SetFromErrnoWithFilename from_errno ts PyExc_OSError e.errnum e.path
      | .DRGN_ERROR_ELF_FORMAT => PyErr_SetString ts FileFormatError e.message
      | .DRGN_ERROR_DWARF_FORMAT => PyErr_SetString ts FileFormatError e.message
      | .DRGN_ERROR_MISSING_DEBUG_INFO => PyErr_SetString ts MissingDebugInfoError e.message
      | .DRGN_ERROR_SYNTAX => PyErr_SetString ts PyExc_SyntaxError e.message
      | .DRGN_ERROR_LOOKUP => PyErr_SetString ts PyExc_LookupError e.message
      | .DRGN_ERROR_FAULT => PyErr_SetString ts FaultError e.message
      | .DRGN_ERROR_TYPE => PyErr_SetString ts PyExc_TypeError e.message
      | .DRGN_ERROR_ZERO_DIVISION => PyErr_SetString ts PyExc_ZeroDivisionError e.message
      | _ => PyErr_SetString ts PyExc_Exception e.message
    { ret := none, ts := ts2, destroyed := true }

/-- The flag `drgn_in_python` of a thread: the value stored under the key, if any. -/
def drgn_in_python_flag (ts : PyThreadState) : Option PyObject :=
  ts.dict.lookup PyId_drgn_in_python

end Drgn

namespace LLDwarf

/-! ## Bytes and the cursor -/

theorem le_value_lt (l : List Byte) : le_value l < 256 ^ l.length := by
  induction l with
  | nil => simp [le_value]
  | cons b bs ih =>
    have hb := b.isLt
    simp only [le_value, List.length_cons, pow_succ]
    omega

theorem le_value_eq_zero (l : List Byte) : le_value l = 0 ↔ l = List.replicate l.length 0 := by
  induction l with
  | nil => simp [le_value]
  | cons b bs ih =>
    simp only [le_value, List.length_cons, List.replicate_succ, List.cons.injEq]
    constructor
    · intro h
      have h1 : b.val = 0 := by omega
      have h2 : le_value bs = 0 := by omega
      exact ⟨Fin.ext h1, ih.mp h2⟩
    · rintro ⟨h1, h2⟩
      rw [ih.mpr h2, h1]
      rfl

theorem le_value_replicate (n : Nat) : le_value (List.replicate n (0 : Byte)) = 0 := by
  rw [le_value_eq_zero]
  simp

theorem le_bytes_length (width value : Nat) : (le_bytes width value).length = width := by
  induction width generalizing value with
  | zero => rfl
  | succ w ih => simp [le_bytes, ih]

theorem le_value_le_bytes (width value : Nat) (h : value < 256 ^ width) :
    le_value (le_bytes width value) = value := by
  induction width generalizing value with
  | zero => simp at h; simp [le_bytes, le_value, h]
  | succ w ih =>
    have h2 : value / 256 < 256 ^ w := by
      rw [pow_succ] at h
      exact Nat.div_lt_of_lt_mul (by omega)
    simp only [le_bytes, le_value, ih _ h2]
    omega

theorem read_bytes_ok (buffer : Py_buffer) (offset size : Nat)
    (h : offset + size ≤ buffer.length) :
    read_bytes buffer offset size =
      (.ok (le_value ((buffer.drop offset).take size)), offset + size) := by
  simp [read_bytes, h]

theorem read_bytes_short (buffer : Py_buffer) (offset size : Nat)
    (h : ¬ offset + size ≤ buffer.length) :
    read_bytes buffer offset size = (.error (.Truncated none), offset) := by
  simp [read_bytes, h]

/-! ## One iteration of the loop -/

theorem read_segment_ok (buffer : Py_buffer) (offset segment_size : Nat)
    (hs : segment_size = 0 ∨ segment_size = 4 ∨ segment_size = 8)
    (h : offset + segment_size ≤ buffer.length) :
    read_segment buffer offset segment_size =
      (.ok (le_value ((buffer.drop offset).take segment_size)), offset + segment_size) := by
  rcases hs with rfl | rfl | rfl
  · simp [read_segment, le_value]
  · simp [read_segment, read_u32, read_bytes_ok _ _ _ h]
  · simp [read_segment, read_u64, read_bytes_ok _ _ _ h]

theorem read_segment_zero (buffer : Py_buffer) (offset : Nat) :
    read_segment buffer offset 0 = (.ok 0, offset) := by
  simp [read_segment]

theorem read_segment_short (buffer : Py_buffer) (offset segment_size : Nat)
    (hs : segment_size = 4 ∨ segment_size = 8)
    (h : ¬ offset + segment_size ≤ buffer.length) :
    read_segment buffer offset segment_size = (.error (.Truncated none), offset) := by
  rcases hs with rfl | rfl
  · simp [read_segment, read_u32, read_bytes_short _ _ _ h]
  · simp [read_segment, read_u64, read_bytes_short _ _ _ h]

theorem read_segment_unsupported (buffer : Py_buffer) (offset : Nat) (segment_size : Int)
    (h0 : segment_size ≠ 0) (h4 : segment_size ≠ 4) (h8 : segment_size ≠ 8) :
    read_segment buffer offset segment_size =
      (.error (.UnsupportedSize ("unsupported segment size " ++ toString segment_size)),
        offset) := by
  simp [read_segment, h0, h4, h8]

theorem read_address_length_ok (buffer : Py_buffer) (offset address_size : Nat)
    (ha : address_size = 4 ∨ address_size = 8)
    (h : offset + 2 * address_size ≤ buffer.length) :
    read_address_length buffer offset address_size =
      (.ok (le_value ((buffer.drop offset).take address_size),
            le_value ((buffer.drop (offset + address_size)).take address_size)),
        offset + 2 * address_size) := by
  rcases ha with rfl | rfl
  · have h1 : offset + 4 ≤ buffer.length := by omega
    have h2 : offset + 4 + 4 ≤ buffer.length := by omega
    simp only [read_address_length, read_u32, read_bytes_ok _ _ _ h1, read_bytes_ok _ _ _ h2]
    simp
  · have h1 : offset + 8 ≤ buffer.length := by omega
    have h2 : offset + 8 + 8 ≤ buffer.length := by omega
    simp only [read_address_length, read_u64, read_bytes_ok _ _ _ h1, read_bytes_ok _ _ _ h2]
    simp

theorem read_address_length_short (buffer : Py_buffer) (offset address_size : Nat)
    (ha : address_size = 4 ∨ address_size = 8)
    (h : ¬ offset + 2 * address_size ≤ buffer.length) :
    ∃ o, read_address_length buffer offset address_size = (.error (.Truncated none), o) := by
  rcases ha with rfl | rfl
  · by_cases h1 : offset + 4 ≤ buffer.length
    · have h2 : ¬ offset + 4 + 4 ≤ buffer.length := by omega
      exact ⟨offset + 4, by
        simp [read_address_length, read_u32, read_bytes_ok _ _ _ h1, read_bytes_short _ _ _ h2]⟩
    · exact ⟨offset, by simp [read_address_length, read_u32, read_bytes_short _ _ _ h1]⟩
  · by_cases h1 : offset + 8 ≤ buffer.length
    · have h2 : ¬ offset + 8 + 8 ≤ buffer.length := by omega
      exact ⟨offset + 8, by
        simp [read_address_length, read_u64, read_bytes_ok _ _ _ h1, read_bytes_short _ _ _ h2]⟩
    · exact ⟨offset, by simp [read_address_length, read_u64, read_bytes_short _ _ _ h1]⟩

theorem read_address_length_unsupported (buffer : Py_buffer) (offset : Nat) (address_size : Int)
    (h4 : address_size ≠ 4) (h8 : address_size ≠ 8) :
    read_address_length buffer offset address_size =
      (.error (.UnsupportedSize ("unsupported address size " ++ toString address_size)),
        offset) := by
  simp [read_address_length, h4, h8]

/-! ## One iteration of the loop -/

theorem iteration_fits (buffer : Py_buffer) (offset segment_size address_size : Nat)
    (hs : segment_size = 0 ∨ segment_size = 4 ∨ segment_size = 8)
    (ha : address_size = 4 ∨ address_size = 8)
    (h : offset + (segment_size + 2 * address_size) ≤ buffer.length) :
    ParseArangeTable_iteration buffer offset segment_size address_size =
      if record_of_bytes segment_size address_size (buffer.drop offset) = ⟨0, 0, 0⟩ then
        .stop (offset + (segment_size + 2 * address_size))
      else
        .append (record_of_bytes segment_size address_size (buffer.drop offset))
          (offset + (segment_size + 2 * address_size)) := by
  have h1 : offset + segment_size ≤ buffer.length := by omega
  have h2 : offset + segment_size + 2 * address_size ≤ buffer.length := by omega
  simp only [ParseArangeTable_iteration, read_segment_ok _ _ _ hs h1,
    read_address_length_ok _ _ _ ha h2, record_of_bytes, AddressRange.mk.injEq,
    List.drop_drop, Nat.add_assoc]

theorem iteration_short (buffer : Py_buffer) (offset segment_size address_size : Nat)
    (hs : segment_size = 0 ∨ segment_size = 4 ∨ segment_size = 8)
    (ha : address_size = 4 ∨ address_size = 8)
    (h : ¬ offset + (segment_size + 2 * address_size) ≤ buffer.length) :
    ∃ o, ParseArangeTable_iteration buffer offset segment_size address_size =
      .fail (.Truncated none) o := by
  rcases hs with rfl | hs
  · have h2 : ¬ offset + 2 * address_size ≤ buffer.length := by omega
    obtain ⟨o, ho⟩ := read_address_length_short buffer offset address_size ha h2
    exact ⟨o, by simp only [ParseArangeTable_iteration, Nat.cast_zero, read_segment_zero, ho]⟩
  · by_cases h1 : offset + segment_size ≤ buffer.length
    · have h2 : ¬ offset + segment_size + 2 * address_size ≤ buffer.length := by omega
      obtain ⟨o, ho⟩ :=
        read_address_length_short buffer (offset + segment_size) address_size ha h2
      exact ⟨o, by
        simp only [ParseArangeTable_iteration, read_segment_ok _ _ _ (Or.inr hs) h1, ho]⟩
    · exact ⟨offset, by
        simp only [ParseArangeTable_iteration, read_segment_short _ _ _ hs h1]⟩

/-! ## All-zero records -/

theorem take_eq_replicate_add (l : List Byte) (a b : Nat) (h : a + b ≤ l.length) :
    l.take (a + b) = List.replicate (a + b) 0 ↔
      l.take a = List.replicate a 0 ∧ (l.drop a).take b = List.replicate b 0 := by
  rw [List.take_add, List.replicate_add]
  constructor
  · intro heq
    exact List.append_inj heq (by simp; omega)
  · rintro ⟨h1, h2⟩
    rw [h1, h2]

theorem le_value_take_eq_zero (l : List Byte) (n : Nat) (h : n ≤ l.length) :
    le_value (l.take n) = 0 ↔ l.take n = List.replicate n 0 := by
  rw [le_value_eq_zero, List.length_take, Nat.min_eq_left h]

theorem record_eq_zero_iff (segment_size address_size : Nat) (bytes : List Byte)
    (h : segment_size + 2 * address_size ≤ bytes.length) :
    record_of_bytes segment_size address_size bytes = ⟨0, 0, 0⟩ ↔
      bytes.take (segment_size + 2 * address_size) =
        List.replicate (segment_size + 2 * address_size) 0 := by
  have e : segment_size + 2 * address_size = segment_size + address_size + address_size := by
    omega
  rw [e, take_eq_replicate_add _ _ _ (by omega), take_eq_replicate_add _ _ _ (by omega)]
  simp only [record_of_bytes, AddressRange.mk.injEq]
  rw [le_value_take_eq_zero _ _ (by omega), le_value_take_eq_zero _ _ (by simp; omega),
    le_value_take_eq_zero _ _ (by simp; omega), and_assoc]

/-! ## The loop -/

theorem loop_fuel_mono (buffer : Py_buffer) (segment_size address_size : Int)
    (fuel fuel2 offset : Nat) (arange_table : List AddressRange)
    (r : Except Error (List AddressRange) × Nat) (hle : fuel ≤ fuel2)
    (h : ParseArangeTable_loop fuel buffer offset segment_size address_size arange_table =
      some r) :
    ParseArangeTable_loop fuel2 buffer offset segment_size address_size arange_table =
      some r := by
  induction fuel generalizing fuel2 offset arange_table with
  | zero => simp [ParseArangeTable_loop] at h
  | succ n ih =>
    obtain ⟨m, rfl⟩ : ∃ m, fuel2 = m + 1 := ⟨fuel2 - 1, by omega⟩
    simp only [ParseArangeTable_loop] at h ⊢
    cases hit : ParseArangeTable_iteration buffer offset segment_size address_size with
    | fail e o => simpa [hit] using h
    | stop o => simpa [hit] using h
    | append a o =>
      simp only [hit] at h ⊢
      exact ih m o _ (by omega) h

theorem iteration_append_ne_zero (buffer : Py_buffer) (offset : Nat)
    (segment_size address_size : Int) (a : AddressRange) (o : Nat)
    (h : ParseArangeTable_iteration buffer offset segment_size address_size = .append a o) :
    ¬ (a.segment = 0 ∧ a.address = 0 ∧ a.length = 0) := by
  unfold ParseArangeTable_iteration at h
  split at h
  · exact absurd h (by simp)
  · split at h
    · exact absurd h (by simp)
    · split at h
      · exact absurd h (by simp)
      · rename_i hne
        simp only [Iteration.append.injEq] at h
        rw [← h.1]
        exact hne

theorem loop_ne_zero (buffer : Py_buffer) (segment_size address_size : Int)
    (fuel offset : Nat) (arange_table records : List AddressRange) (o : Nat)
    (h : ParseArangeTable_loop fuel buffer offset segment_size address_size arange_table =
      some (.ok records, o))
    (hacc : ∀ r ∈ arange_table, ¬ (r.segment = 0 ∧ r.address = 0 ∧ r.length = 0)) :
    ∀ r ∈ records, ¬ (r.segment = 0 ∧ r.address = 0 ∧ r.length = 0) := by
  induction fuel generalizing offset arange_table with
  | zero => simp [ParseArangeTable_loop] at h
  | succ n ih =>
    simp only [ParseArangeTable_loop] at h
    cases hit : ParseArangeTable_iteration buffer offset segment_size address_size with
    | fail e o2 => simp [hit] at h
    | stop o2 =>
      simp only [hit, Option.some.injEq, Prod.mk.injEq, Except.ok.injEq] at h
      rw [← h.1]
      exact hacc
    | append a o2 =>
      simp only [hit] at h
      refine ih o2 _ h ?_
      intro r hr
      rcases List.mem_append.mp hr with hr | hr
      · exact hacc r hr
      · rw [List.mem_singleton.mp hr]
        exact iteration_append_ne_zero _ _ _ _ _ _ hit

theorem loop_no_terminator (buffer : Py_buffer) (segment_size address_size : Nat)
    (hs : segment_size = 0 ∨ segment_size = 4 ∨ segment_size = 8)
    (ha : address_size = 4 ∨ address_size = 8)
    (fuel offset : Nat) (arange_table : List AddressRange)
    (hfuel : buffer.length - offset < fuel * (segment_size + 2 * address_size))
    (hno : ∀ k, (buffer.drop (offset + k * (segment_size + 2 * address_size))).take
        (segment_size + 2 * address_size) ≠
      List.replicate (segment_size + 2 * address_size) 0) :
    ∃ o, ParseArangeTable_loop fuel buffer offset segment_size address_size arange_table =
      some (.error (.Truncated none), o) := by
  induction fuel generalizing offset arange_table with
  | zero => simp at hfuel
  | succ n ih =>
    simp only [ParseArangeTable_loop]
    by_cases hfit : offset + (segment_size + 2 * address_size) ≤ buffer.length
    · have hnz : ¬ record_of_bytes segment_size address_size (buffer.drop offset) =
          ⟨0, 0, 0⟩ := by
        rw [record_eq_zero_iff _ _ _ (by simp; omega)]
        simpa using hno 0
      rw [iteration_fits _ _ _ _ hs ha hfit, if_neg hnz]
      refine ih _ _ ?_ ?_
      · rw [Nat.succ_mul] at hfuel
        omega
      · intro k
        have e : offset + (k + 1) * (segment_size + 2 * address_size) =
            offset + (segment_size + 2 * address_size) +
              k * (segment_size + 2 * address_size) := by ring
        have hk := hno (k + 1)
        rwa [e] at hk
    · obtain ⟨o, ho⟩ := iteration_short _ _ _ _ hs ha hfit
      exact ⟨o, by rw [ho]⟩

theorem loop_ends (buffer : Py_buffer) (segment_size address_size : Nat)
    (hs : segment_size = 0 ∨ segment_size = 4 ∨ segment_size = 8)
    (ha : address_size = 4 ∨ address_size = 8)
    (fuel offset : Nat) (arange_table : List AddressRange)
    (hfuel : buffer.length - offset < fuel * (segment_size + 2 * address_size)) :
    ∃ r, ParseArangeTable_loop fuel buffer offset segment_size address_size arange_table =
      some r := by
  induction fuel generalizing offset arange_table with
  | zero => simp at hfuel
  | succ n ih =>
    simp only [ParseArangeTable_loop]
    by_cases hfit : offset + (segment_size + 2 * address_size) ≤ buffer.length
    · rw [iteration_fits _ _ _ _ hs ha hfit]
      by_cases hz : record_of_bytes segment_size address_size (buffer.drop offset) = ⟨0, 0, 0⟩
      · rw [if_pos hz]
        exact ⟨_, rfl⟩
      · rw [if_neg hz]
        refine ih _ _ ?_
        rw [Nat.succ_mul] at hfuel
        omega
    · obtain ⟨o, ho⟩ := iteration_short _ _ _ _ hs ha hfit
      exact ⟨_, by rw [ho]⟩

/-! ## Decoding what the writer wrote -/

theorem encode_record_length (segment_size address_size : Nat) (r : AddressRange) :
    (encode_record segment_size address_size r).length = segment_size + 2 * address_size := by
  simp [encode_record, le_bytes_length]
  omega

theorem encode_body_length (segment_size address_size : Nat) (records : List AddressRange) :
    (encode_body segment_size address_size records).length =
      (records.length + 1) * (segment_size + 2 * address_size) := by
  induction records with
  | nil => simp [encode_body, terminator]
  | cons r records ih =>
    simp only [encode_body, List.length_append, encode_record_length, ih, List.length_cons]
    ring

theorem record_of_encode_record (segment_size address_size : Nat) (r : AddressRange)
    (rest : List Byte) (hr : fits segment_size address_size r) :
    record_of_bytes segment_size address_size
      (encode_record segment_size address_size r ++ rest) = r := by
  obtain ⟨h1, h2, h3⟩ := hr
  have e : encode_record segment_size address_size r ++ rest =
      le_bytes segment_size r.segment ++ (le_bytes address_size r.address ++
        (le_bytes address_size r.length ++ rest)) := by
    simp [encode_record]
  have l1 := le_bytes_length segment_size r.segment
  have l2 := le_bytes_length address_size r.address
  have l3 := le_bytes_length address_size r.length
  cases r with
  | mk s a l =>
    simp only [record_of_bytes, AddressRange.mk.injEq, e]
    refine ⟨?_, ?_, ?_⟩
    · rw [List.take_left' l1, le_value_le_bytes _ _ h1]
    · rw [List.drop_left' l1, List.take_left' l2, le_value_le_bytes _ _ h2]
    · rw [← List.drop_drop, List.drop_left' l1, List.drop_left' l2, List.take_left' l3,
        le_value_le_bytes _ _ h3]

theorem loop_encoded (segment_size address_size : Nat)
    (hs : segment_size = 0 ∨ segment_size = 4 ∨ segment_size = 8)
    (ha : address_size = 4 ∨ address_size = 8)
    (records : List AddressRange)
    (hrec : ∀ r ∈ records, fits segment_size address_size r ∧ r ≠ ⟨0, 0, 0⟩)
    (pre post : List Byte) (arange_table : List AddressRange) (fuel : Nat)
    (hfuel : records.length + 1 ≤ fuel) :
    ParseArangeTable_loop fuel (pre ++ encode_body segment_size address_size records ++ post)
        pre.length segment_size address_size arange_table =
      some (.ok (arange_table ++ records),
        pre.length + (records.length + 1) * (segment_size + 2 * address_size)) := by
  induction records generalizing pre arange_table fuel with
  | nil =>
    obtain ⟨m, rfl⟩ : ∃ m, fuel = m + 1 := ⟨fuel - 1, by simp at hfuel; omega⟩
    have hfit : pre.length + (segment_size + 2 * address_size) ≤
        (pre ++ encode_body segment_size address_size [] ++ post).length := by
      simp [encode_body_length]
    have hz : record_of_bytes segment_size address_size
        ((pre ++ encode_body segment_size address_size [] ++ post).drop pre.length) =
          ⟨0, 0, 0⟩ := by
      rw [record_eq_zero_iff _ _ _ (by simp [encode_body_length]),
        List.append_assoc, List.drop_left, encode_body, terminator]
      exact List.take_left' (by simp)
    simp only [ParseArangeTable_loop, iteration_fits _ _ _ _ hs ha hfit, if_pos hz]
    simp
  | cons r records ih =>
    obtain ⟨m, rfl⟩ : ∃ m, fuel = m + 1 := ⟨fuel - 1, by simp at hfuel; omega⟩
    have hfit : pre.length + (segment_size + 2 * address_size) ≤
        (pre ++ encode_body segment_size address_size (r :: records) ++ post).length := by
      simp only [List.length_append, encode_body_length, List.length_cons]
      have : (records.length + 1 + 1) * (segment_size + 2 * address_size) =
          (records.length + 1) * (segment_size + 2 * address_size) +
            (segment_size + 2 * address_size) := by ring
      omega
    have hrd : record_of_bytes segment_size address_size
        ((pre ++ encode_body segment_size address_size (r :: records) ++ post).drop
          pre.length) = r := by
      rw [List.append_assoc, List.drop_left, encode_body, List.append_assoc]
      exact record_of_encode_record _ _ _ _ (hrec r (List.mem_cons_self _ _)).1
    have hnz := (hrec r (List.mem_cons_self _ _)).2
    simp only [ParseArangeTable_loop, iteration_fits _ _ _ _ hs ha hfit, hrd, if_neg hnz]
    have hbuf : pre ++ encode_body segment_size address_size (r :: records) ++ post =
        (pre ++ encode_record segment_size address_size r) ++
          encode_body segment_size address_size records ++ post := by
      simp [encode_body]
    have hoff : pre.length + (segment_size + 2 * address_size) =
        (pre ++ encode_record segment_size address_size r).length := by
      simp [encode_record_length]
    rw [hbuf, hoff, ih (fun x hx => hrec x (List.mem_cons_of_mem _ hx)) _ _ _
      (by simp at hfuel ⊢; omega)]
    simp only [List.append_assoc, List.singleton_append, List.length_append,
      encode_record_length, List.length_cons, Option.some.injEq, Prod.mk.injEq, true_and]
    ring

theorem iteration_unsupported (buffer : Py_buffer) (offset : Nat)
    (segment_size address_size : Int)
    (h : ¬ ((segment_size = 0 ∨ segment_size = 4 ∨ segment_size = 8) ∧
      (address_size = 4 ∨ address_size = 8))) :
    ∃ e o, ParseArangeTable_iteration buffer offset segment_size address_size = .fail e o := by
  by_cases hs : segment_size = 0 ∨ segment_size = 4 ∨ segment_size = 8
  · have ha : address_size ≠ 4 ∧ address_size ≠ 8 := by
      constructor <;> intro hc <;> exact h ⟨hs, by simp [hc]⟩
    unfold ParseArangeTable_iteration
    rcases hseg : read_segment buffer offset segment_size with ⟨res, o⟩
    cases res with
    | error e => exact ⟨e, o, rfl⟩
    | ok v =>
      simp only [read_address_length_unsupported _ _ _ ha.1 ha.2]
      exact ⟨_, _, rfl⟩
  · have h0 : segment_size ≠ 0 := fun hc => hs (Or.inl hc)
    have h4 : segment_size ≠ 4 := fun hc => hs (Or.inr (Or.inl hc))
    have h8 : segment_size ≠ 8 := fun hc => hs (Or.inr (Or.inr hc))
    unfold ParseArangeTable_iteration
    simp only [read_segment_unsupported _ _ _ h0 h4 h8]
    exact ⟨_, _, rfl⟩

theorem valid_sizes_nat (segment_size address_size : Int)
    (h : (segment_size = 0 ∨ segment_size = 4 ∨ segment_size = 8) ∧
      (address_size = 4 ∨ address_size = 8)) :
    ∃ s a : Nat, (s = 0 ∨ s = 4 ∨ s = 8) ∧ (a = 4 ∨ a = 8) ∧ segment_size = s ∧
      address_size = a := by
  obtain ⟨hs, ha⟩ := h
  rcases hs with rfl | rfl | rfl <;> rcases ha with rfl | rfl
  · exact ⟨0, 4, by simp, by simp, by simp, by simp⟩
  · exact ⟨0, 8, by simp, by simp, by simp, by simp⟩
  · exact ⟨4, 4, by simp, by simp, by simp, by simp⟩
  · exact ⟨4, 8, by simp, by simp, by simp, by simp⟩
  · exact ⟨8, 4, by simp, by simp, by simp, by simp⟩
  · exact ⟨8, 8, by simp, by simp, by simp, by simp⟩

theorem iteration_bound_valid (buffer : Py_buffer) (offset s a : Nat) :
    iteration_bound buffer offset s a = (buffer.length - offset) / (s + 2 * a) + 1 := by
  unfold iteration_bound
  have e : ((s : Int) + 2 * (a : Int)) = ((s + 2 * a : Nat) : Int) := by push_cast; ring
  rw [e, ← Int.ofNat_ediv, Int.toNat_ofNat]

theorem lt_bound_mul (n rs : Nat) (h : 0 < rs) : n < (n / rs + 1) * rs := by
  have h1 := Nat.div_add_mod n rs
  have h2 := Nat.mod_lt n h
  have h3 : (n / rs + 1) * rs = rs * (n / rs) + rs := by ring
  omega

theorem loop_result (buffer : Py_buffer) (offset : Nat) (segment_size address_size : Int)
    (arange_table : List AddressRange) :
    ∃ r, ∀ extra, ParseArangeTable_loop
      (iteration_bound buffer offset segment_size address_size + extra) buffer offset
        segment_size address_size arange_table = some r := by
  by_cases h : (segment_size = 0 ∨ segment_size = 4 ∨ segment_size = 8) ∧
      (address_size = 4 ∨ address_size = 8)
  · obtain ⟨s, a, hs, ha, rfl, rfl⟩ := valid_sizes_nat _ _ h
    have hpos : 0 < s + 2 * a := by omega
    obtain ⟨r, hr⟩ := loop_ends buffer s a hs ha (iteration_bound buffer offset s a) offset
      arange_table (by rw [iteration_bound_valid]; exact lt_bound_mul _ _ hpos)
    exact ⟨r, fun extra => loop_fuel_mono _ _ _ _ _ _ _ _ (by omega) hr⟩
  · obtain ⟨e, o, hit⟩ := iteration_unsupported buffer offset segment_size address_size h
    refine ⟨(.error e, o), fun extra => ?_⟩
    have e1 : iteration_bound buffer offset segment_size address_size + extra =
        ((((buffer.length - offset : Nat) : Int) /
          (segment_size + 2 * address_size)).toNat + extra) + 1 := by
      unfold iteration_bound
      omega
    rw [e1]
    simp only [ParseArangeTable_loop, hit]

theorem iteration_bound_le (buffer : Py_buffer) (offset : Nat)
    (segment_size address_size : Int) :
    iteration_bound buffer offset segment_size address_size ≤ buffer.length - offset + 1 := by
  unfold iteration_bound
  have h : (((buffer.length - offset : Nat) : Int) / (segment_size + 2 * address_size)) ≤
      ((buffer.length - offset : Nat) : Int) :=
    Int.ediv_le_self _ (Int.ofNat_nonneg _)
  omega

theorem ParseArangeTable_eq_loop (buffer : Py_buffer) (offset : Nat)
    (segment_size address_size : Int) (fuel : Nat)
    (r : Except Error (List AddressRange) × Nat)
    (h : ParseArangeTable_loop fuel buffer offset segment_size address_size [] = some r) :
    LLDwarf_ParseArangeTable buffer offset segment_size address_size = some r := by
  obtain ⟨r2, hr2⟩ := loop_result buffer offset segment_size address_size []
  have h0 := hr2 0
  have hb := iteration_bound_le buffer offset segment_size address_size
  have h1 := loop_fuel_mono _ _ _ _ (fuel + (buffer.length - offset + 1)) _ _ _
    (Nat.le_add_right _ _) h
  have h2 := loop_fuel_mono _ _ _ _ (fuel + (buffer.length - offset + 1)) _ _ _ (by omega) h0
  have h3 : r2 = r := by
    rw [h1] at h2
    exact (Option.some.inj h2).symm
  unfold LLDwarf_ParseArangeTable
  rw [← h3]
  exact loop_fuel_mono _ _ _ _ _ _ _ _ hb h0

/-! ## The body decoder -/

/-- C1. Round trip: for `segment_size` in {0,4,8} and `address_size` in {4,8}, decoding a
body made of records that fit the widths and are not the all-zero triple, written in order
and followed by the all-zero terminator, returns exactly those records in order, without
the terminator, and leaves the offset `(N+1) * (segment_size + 2*address_size)` past the
start, right after the terminator (whatever precedes the body and follows it). -/
theorem ParseArangeTable_round_trip (segment_size address_size : Nat)
    (hs : segment_size = 0 ∨ segment_size = 4 ∨ segment_size = 8)
    (ha : address_size = 4 ∨ address_size = 8)
    (records : List AddressRange)
    (hrec : ∀ r ∈ records, fits segment_size address_size r ∧ r ≠ ⟨0, 0, 0⟩)
    (pre post : List Byte) :
    LLDwarf_ParseArangeTable (pre ++ encode_body segment_size address_size records ++ post)
        pre.length segment_size address_size =
      some (.ok records,
        pre.length + (records.length + 1) * (segment_size + 2 * address_size)) := by
  have h := loop_encoded segment_size address_size hs ha records hrec pre post []
    (records.length + 1) (Nat.le_refl _)
  exact ParseArangeTable_eq_loop _ _ _ _ _ _ (by simpa using h)

/-- The example of C1: `address_size = 8`, `segment_size = 0`, the records
`(0x1000, 0x20)` and `(0x2000, 0x10)`, then 16 zero bytes. -/
theorem ParseArangeTable_round_trip_witness :
    LLDwarf_ParseArangeTable
        [0x00, 0x10, 0, 0, 0, 0, 0, 0, 0x20, 0, 0, 0, 0, 0, 0, 0,
         0x00, 0x20, 0, 0, 0, 0, 0, 0, 0x10, 0, 0, 0, 0, 0, 0, 0,
         0, 0, 0, 0, 0, 0, 0, 0, 0, 0, 0, 0, 0, 0, 0, 0] 0 0 8 =
      some (.ok [⟨0, 0x1000, 0x20⟩, ⟨0, 0x2000, 0x10⟩], 48) :=
  ParseArangeTable_round_trip 0 8 (Or.inl rfl) (Or.inr rfl)
    [⟨0, 0x1000, 0x20⟩, ⟨0, 0x2000, 0x10⟩] (by simp [fits]) [] []

/-- C5. A `segment_size` outside {0,4,8} fails with `UnsupportedSize` and the message
"unsupported segment size <n>", `<n>` the decimal value of `segment_size`, for every
`address_size`, buffer and offset; the offset is left unchanged and the result is the same
as on the empty buffer. -/
theorem ParseArangeTable_unsupported_segment_size (buffer : Py_buffer) (offset : Nat)
    (segment_size address_size : Int)
    (h0 : segment_size ≠ 0) (h4 : segment_size ≠ 4) (h8 : segment_size ≠ 8) :
    LLDwarf_ParseArangeTable buffer offset segment_size address_size =
        some (.error (.UnsupportedSize
          ("unsupported segment size " ++ toString segment_size)), offset) ∧
      LLDwarf_ParseArangeTable [] offset segment_size address_size =
        LLDwarf_ParseArangeTable buffer offset segment_size address_size := by
  have key : ∀ b : Py_buffer, LLDwarf_ParseArangeTable b offset segment_size address_size =
      some (.error (.UnsupportedSize
        ("unsupported segment size " ++ toString segment_size)), offset) := by
    intro b
    simp only [LLDwarf_ParseArangeTable, ParseArangeTable_loop, ParseArangeTable_iteration,
      read_segment_unsupported _ _ _ h0 h4 h8]
  exact ⟨key buffer, by rw [key [], key buffer]⟩

/-- The example of C5: `segment_size = 3` on the empty buffer. -/
theorem ParseArangeTable_unsupported_segment_size_witness :
    LLDwarf_ParseArangeTable [] 0 3 4 =
      some (.error (.UnsupportedSize "unsupported segment size 3"), 0) :=
  (ParseArangeTable_unsupported_segment_size [] 0 3 4 (by decide) (by decide) (by decide)).1

/-- C6 as stated fails: with `segment_size = 4`, `address_size = 2` and an empty buffer the
segment read comes first and the decode fails with `Truncated`, not `UnsupportedSize`. -/
theorem ParseArangeTable_unsupported_address_size_counterexample :
    outcome (LLDwarf_ParseArangeTable [] 0 4 2) = some (.error (.Truncated none)) ∧
      outcome (LLDwarf_ParseArangeTable [] 0 4 2) ≠
        some (.error (.UnsupportedSize "unsupported address size 2")) := by
  decide

/-- C6, amended. For `segment_size` in {0,4,8} and an `address_size` outside {4,8}: when the
segment field of the first record can be read (`segment_size = 0`, or at least
`segment_size` bytes remain at the offset) the decode fails with `UnsupportedSize` and the
message "unsupported address size <n>", `<n>` the decimal value of `address_size`;
otherwise it fails with `Truncated`. -/
theorem ParseArangeTable_unsupported_address_size (buffer : Py_buffer) (offset : Nat)
    (segment_size : Nat) (address_size : Int)
    (hs : segment_size = 0 ∨ segment_size = 4 ∨ segment_size = 8)
    (h4 : address_size ≠ 4) (h8 : address_size ≠ 8) :
    (segment_size = 0 ∨ offset + segment_size ≤ buffer.length →
      outcome (LLDwarf_ParseArangeTable buffer offset segment_size address_size) =
        some (.error (.UnsupportedSize
          ("unsupported address size " ++ toString address_size)))) ∧
    (¬ (segment_size = 0 ∨ offset + segment_size ≤ buffer.length) →
      outcome (LLDwarf_ParseArangeTable buffer offset segment_size address_size) =
        some (.error (.Truncated none))) := by
  constructor
  · intro h
    have hseg : ∃ v, read_segment buffer offset segment_size = (.ok v, offset + segment_size) := by
      rcases h with rfl | h
      · exact ⟨0, by simp [read_segment_zero]⟩
      · exact ⟨_, read_segment_ok _ _ _ hs h⟩
    obtain ⟨v, hv⟩ := hseg
    simp only [LLDwarf_ParseArangeTable, ParseArangeTable_loop, ParseArangeTable_iteration,
      hv, read_address_length_unsupported _ _ _ h4 h8, outcome, Option.map_some']
  · intro h
    have hs2 : segment_size = 4 ∨ segment_size = 8 := by omega
    have hshort : ¬ offset + segment_size ≤ buffer.length := fun hc => h (Or.inr hc)
    simp only [LLDwarf_ParseArangeTable, ParseArangeTable_loop, ParseArangeTable_iteration,
      read_segment_short _ _ _ hs2 hshort, outcome, Option.map_some']

/-- The example of C6: `address_size = 2` with no segment field. -/
theorem ParseArangeTable_unsupported_address_size_witness :
    outcome (LLDwarf_ParseArangeTable [1, 2, 3, 4, 5, 6, 7, 8] 0 0 2) =
      some (.error (.UnsupportedSize "unsupported address size 2")) :=
  (ParseArangeTable_unsupported_address_size [1, 2, 3, 4, 5, 6, 7, 8] 0 0 2 (Or.inl rfl)
    (by decide) (by decide)).1 (Or.inl rfl)

/-- C7. For `segment_size` in {0,4,8} and `address_size` in {4,8}: when no record-aligned
position `offset + k * (segment_size + 2*address_size)` holds a complete all-zero record
inside the buffer (also when the buffer ends in the middle of a record), the decode fails
with `Truncated`; no list of records is returned. -/
theorem ParseArangeTable_truncated (buffer : Py_buffer) (offset : Nat)
    (segment_size address_size : Nat)
    (hs : segment_size = 0 ∨ segment_size = 4 ∨ segment_size = 8)
    (ha : address_size = 4 ∨ address_size = 8)
    (hno : ∀ k, (buffer.drop (offset + k * (segment_size + 2 * address_size))).take
        (segment_size + 2 * address_size) ≠
      List.replicate (segment_size + 2 * address_size) 0) :
    ∃ o, LLDwarf_ParseArangeTable buffer offset segment_size address_size =
      some (.error (.Truncated none), o) := by
  have hpos : 0 < segment_size + 2 * address_size := by omega
  have hfuel : buffer.length - offset <
      (buffer.length - offset + 1) * (segment_size + 2 * address_size) := by
    have := Nat.le_mul_of_pos_right (buffer.length - offset + 1) hpos
    omega
  exact loop_no_terminator buffer segment_size address_size hs ha _ offset [] hfuel hno

/-- The example of C7: only 6 of the 8 bytes of a 64-bit address are there. -/
theorem ParseArangeTable_truncated_witness :
    ∃ o, LLDwarf_ParseArangeTable [0, 0x10, 0, 0, 0, 0] 0 0 8 =
      some (.error (.Truncated none), o) :=
  ParseArangeTable_truncated [0, 0x10, 0, 0, 0, 0] 0 0 8 (Or.inl rfl) (Or.inr rfl)
    (by
      intro k h
      have hl := congrArg List.length h
      simp at hl
      omega)

/-- C8. The record loop ends on every input: within `iteration_bound`, that is
(remaining bytes) / (segment_size + 2*address_size) + 1, iterations it has produced a
result, allowing more iterations does not change it, it is the result of
`LLDwarf_ParseArangeTable`, and it is a list of records, `Truncated` or
`UnsupportedSize`. -/
theorem ParseArangeTable_terminates (buffer : Py_buffer) (offset : Nat)
    (segment_size address_size : Int) :
    ∃ r, ParseArangeTable_loop (iteration_bound buffer offset segment_size address_size)
          buffer offset segment_size address_size [] = some r ∧
      (∀ extra, ParseArangeTable_loop
          (iteration_bound buffer offset segment_size address_size + extra)
          buffer offset segment_size address_size [] = some r) ∧
      LLDwarf_ParseArangeTable buffer offset segment_size address_size = some r ∧
      ((∃ records, r.1 = .ok records) ∨ (∃ d, r.1 = .error (.Truncated d)) ∨
        (∃ d, r.1 = .error (.UnsupportedSize d))) := by
  obtain ⟨r, hr⟩ := loop_result buffer offset segment_size address_size []
  refine ⟨r, hr 0, hr, ParseArangeTable_eq_loop _ _ _ _ _ _ (hr 0), ?_⟩
  rcases r with ⟨res, o⟩
  cases res with
  | ok records => exact Or.inl ⟨records, rfl⟩
  | error e =>
    cases e with
    | Truncated d => exact Or.inr (Or.inl ⟨d, rfl⟩)
    | UnsupportedSize d => exact Or.inr (Or.inr ⟨d, rfl⟩)

/-- C9. No returned record is the terminator: whenever the decode succeeds, every record
of the returned list has a non-zero segment, address or length. -/
theorem ParseArangeTable_no_terminator_returned (buffer : Py_buffer) (offset : Nat)
    (segment_size address_size : Int) (records : List AddressRange) (o : Nat)
    (h : LLDwarf_ParseArangeTable buffer offset segment_size address_size =
      some (.ok records, o)) :
    ∀ r ∈ records, r.segment ≠ 0 ∨ r.address ≠ 0 ∨ r.length ≠ 0 := by
  intro r hr
  have hnz := loop_ne_zero buffer segment_size address_size _ offset [] records o h
    (by simp) r hr
  omega

/-- An instance of C9: a body of one 32-bit record and the terminator. -/
theorem ParseArangeTable_no_terminator_returned_witness :
    LLDwarf_ParseArangeTable [0x00, 0x10, 0, 0, 0x20, 0, 0, 0, 0, 0, 0, 0, 0, 0, 0, 0] 0 0 4 =
        some (.ok [⟨0, 0x1000, 0x20⟩], 16) ∧
      ∀ r ∈ [(⟨0, 0x1000, 0x20⟩ : AddressRange)],
        r.segment ≠ 0 ∨ r.address ≠ 0 ∨ r.length ≠ 0 :=
  ⟨by decide, ParseArangeTable_no_terminator_returned
    [0x00, 0x10, 0, 0, 0x20, 0, 0, 0, 0, 0, 0, 0, 0, 0, 0, 0] 0 0 4
    [⟨0, 0x1000, 0x20⟩] 16 (by decide)⟩

/-- C10. A terminator-only body: for `segment_size` in {0,4,8} and `address_size` in {4,8},
when the `segment_size + 2*address_size` bytes at the offset are all zero the decode returns
the empty list and advances the offset by exactly that many bytes, whatever follows. -/
theorem ParseArangeTable_terminator_only (buffer : Py_buffer) (offset : Nat)
    (segment_size address_size : Nat)
    (hs : segment_size = 0 ∨ segment_size = 4 ∨ segment_size = 8)
    (ha : address_size = 4 ∨ address_size = 8)
    (hz : (buffer.drop offset).take (segment_size + 2 * address_size) =
      List.replicate (segment_size + 2 * address_size) 0) :
    LLDwarf_ParseArangeTable buffer offset segment_size address_size =
      some (.ok [], offset + (segment_size + 2 * address_size)) := by
  have hl := congrArg List.length hz
  simp only [List.length_take, List.length_drop, List.length_replicate] at hl
  have hfit : offset + (segment_size + 2 * address_size) ≤ buffer.length := by omega
  have hrec : record_of_bytes segment_size address_size (buffer.drop offset) = ⟨0, 0, 0⟩ :=
    (record_eq_zero_iff _ _ _ (by simp; omega)).mpr hz
  refine ParseArangeTable_eq_loop _ _ _ _ 1 _ ?_
  simp only [ParseArangeTable_loop, iteration_fits _ _ _ _ hs ha hfit, if_pos hrec]

/-- An instance of C10: a 12-byte terminator (`segment_size = 4`, `address_size = 4`) after
two bytes that are skipped, followed by bytes that are not read. -/
theorem ParseArangeTable_terminator_only_witness :
    LLDwarf_ParseArangeTable [7, 7, 0, 0, 0, 0, 0, 0, 0, 0, 0, 0, 0, 0, 9, 9, 9] 2 4 4 =
      some (.ok [], 14) :=
  ParseArangeTable_terminator_only [7, 7, 0, 0, 0, 0, 0, 0, 0, 0, 0, 0, 0, 0, 9, 9, 9] 2 4 4
    (Or.inr (Or.inl rfl)) (Or.inl rfl) (by decide)

/-! ## The header decoder -/

theorem value_at_lt (buffer : Py_buffer) (offset width : Nat) :
    value_at buffer offset width < 256 ^ width := by
  have h := le_value_lt ((buffer.drop offset).take width)
  have hl : ((buffer.drop offset).take width).length ≤ width := by simp
  exact lt_of_lt_of_le h (Nat.pow_le_pow_right (by decide) hl)

theorem value_at_one (buffer : Py_buffer) (offset : Nat) (h : offset < buffer.length) :
    value_at buffer offset 1 = (buffer.getD offset 0).val := by
  unfold value_at
  rw [List.getD_eq_getElem _ _ h]
  rw [List.drop_eq_getElem_cons h]
  simp [le_value]

theorem header_32_ok (buffer : Py_buffer) (offset : Nat)
    (hlen : offset + 12 ≤ buffer.length) (h32 : value_at buffer offset 4 ≠ 0xffffffff) :
    LLDwarf_ParseArangeTableHeader buffer offset =
      (.ok { unit_length := value_at buffer offset 4
             version := value_at buffer (offset + 4) 2
             debug_info_offset := value_at buffer (offset + 6) 4
             address_size := value_at buffer (offset + 10) 1
             segment_size := value_at buffer (offset + 11) 1
             is_64_bit := false }, offset + 12) := by
  have h1 : offset + 4 ≤ buffer.length := by omega
  have h2 : offset + 4 + 2 ≤ buffer.length := by omega
  have h3 : offset + 4 + 2 + 4 ≤ buffer.length := by omega
  have h4 : offset + 4 + 2 + 4 + 1 ≤ buffer.length := by omega
  have h5 : offset + 4 + 2 + 4 + 1 + 1 ≤ buffer.length := by omega
  unfold value_at at h32
  simp only [LLDwarf_ParseArangeTableHeader, read_u32, read_u16, read_u8,
    read_bytes_ok _ _ _ h1, beq_iff_eq, h32, if_false, read_bytes_ok _ _ _ h2,
    read_bytes_ok _ _ _ h3, read_bytes_ok _ _ _ h4, read_bytes_ok _ _ _ h5, value_at]
  simp [h32]

theorem header_64_ok (buffer : Py_buffer) (offset : Nat)
    (hlen : offset + 24 ≤ buffer.length) (h64 : value_at buffer offset 4 = 0xffffffff) :
    LLDwarf_ParseArangeTableHeader buffer offset =
      (.ok { unit_length := value_at buffer (offset + 4) 8
             version := value_at buffer (offset + 12) 2
             debug_info_offset := value_at buffer (offset + 14) 8
             address_size := value_at buffer (offset + 22) 1
             segment_size := value_at buffer (offset + 23) 1
             is_64_bit := true }, offset + 24) := by
  have h1 : offset + 4 ≤ buffer.length := by omega
  have h2 : offset + 4 + 8 ≤ buffer.length := by omega
  have h3 : offset + 4 + 8 + 2 ≤ buffer.length := by omega
  have h4 : offset + 4 + 8 + 2 + 8 ≤ buffer.length := by omega
  have h5 : offset + 4 + 8 + 2 + 8 + 1 ≤ buffer.length := by omega
  have h6 : offset + 4 + 8 + 2 + 8 + 1 + 1 ≤ buffer.length := by omega
  unfold value_at at h64
  simp only [LLDwarf_ParseArangeTableHeader, read_u32, read_u16, read_u8, read_u64,
    read_bytes_ok _ _ _ h1, beq_iff_eq, h64, if_true, read_bytes_ok _ _ _ h2,
    read_bytes_ok _ _ _ h3, read_bytes_ok _ _ _ h4, read_bytes_ok _ _ _ h5,
    read_bytes_ok _ _ _ h6, value_at]
  simp

theorem header_32_short (buffer : Py_buffer) (offset : Nat)
    (h32 : value_at buffer offset 4 ≠ 0xffffffff) (hshort : ¬ offset + 12 ≤ buffer.length) :
    (LLDwarf_ParseArangeTableHeader buffer offset).1 =
      .error (.Truncated (some "address range table header is truncated")) := by
  unfold value_at at h32
  by_cases h1 : offset + 4 ≤ buffer.length
  · by_cases h2 : offset + 4 + 2 ≤ buffer.length
    · by_cases h3 : offset + 4 + 2 + 4 ≤ buffer.length
      · by_cases h4 : offset + 4 + 2 + 4 + 1 ≤ buffer.length
        · have h5 : ¬ offset + 4 + 2 + 4 + 1 + 1 ≤ buffer.length := by omega
          simp only [LLDwarf_ParseArangeTableHeader, read_u32, read_u16, read_u8,
            read_bytes_ok _ _ _ h1, beq_iff_eq, h32, if_false, read_bytes_ok _ _ _ h2,
            read_bytes_ok _ _ _ h3, read_bytes_ok _ _ _ h4, read_bytes_short _ _ _ h5,
            header_err]
        · simp only [LLDwarf_ParseArangeTableHeader, read_u32, read_u16, read_u8,
            read_bytes_ok _ _ _ h1, beq_iff_eq, h32, if_false, read_bytes_ok _ _ _ h2,
            read_bytes_ok _ _ _ h3, read_bytes_short _ _ _ h4, header_err]
      · simp only [LLDwarf_ParseArangeTableHeader, read_u32, read_u16,
          read_bytes_ok _ _ _ h1, beq_iff_eq, h32, if_false, read_bytes_ok _ _ _ h2,
          read_bytes_short _ _ _ h3, header_err]
    · simp only [LLDwarf_ParseArangeTableHeader, read_u32, read_u16,
        read_bytes_ok _ _ _ h1, beq_iff_eq, h32, if_false, read_bytes_short _ _ _ h2,
        header_err]
  · simp only [LLDwarf_ParseArangeTableHeader, read_u32, read_bytes_short _ _ _ h1,
      header_err]

theorem header_64_short (buffer : Py_buffer) (offset : Nat)
    (h64 : value_at buffer offset 4 = 0xffffffff) (hshort : ¬ offset + 24 ≤ buffer.length) :
    (LLDwarf_ParseArangeTableHeader buffer offset).1 =
      .error (.Truncated (some "address range table header is truncated")) := by
  unfold value_at at h64
  by_cases h1 : offset + 4 ≤ buffer.length
  · by_cases h2 : offset + 4 + 8 ≤ buffer.length
    · by_cases h3 : offset + 4 + 8 + 2 ≤ buffer.length
      · by_cases h4 : offset + 4 + 8 + 2 + 8 ≤ buffer.length
        · by_cases h5 : offset + 4 + 8 + 2 + 8 + 1 ≤ buffer.length
          · have h6 : ¬ offset + 4 + 8 + 2 + 8 + 1 + 1 ≤ buffer.length := by omega
            simp only [LLDwarf_ParseArangeTableHeader, read_u32, read_u16, read_u8, read_u64,
              read_bytes_ok _ _ _ h1, beq_iff_eq, h64, if_true, read_bytes_ok _ _ _ h2,
              read_bytes_ok _ _ _ h3, read_bytes_ok _ _ _ h4, read_bytes_ok _ _ _ h5,
              read_bytes_short _ _ _ h6, header_err]
          · simp only [LLDwarf_ParseArangeTableHeader, read_u32, read_u16, read_u8, read_u64,
              read_bytes_ok _ _ _ h1, beq_iff_eq, h64, if_true, read_bytes_ok _ _ _ h2,
              read_bytes_ok _ _ _ h3, read_bytes_ok _ _ _ h4, read_bytes_short _ _ _ h5,
              header_err]
        · simp only [LLDwarf_ParseArangeTableHeader, read_u32, read_u16, read_u64,
            read_bytes_ok _ _ _ h1, beq_iff_eq, h64, if_true, read_bytes_ok _ _ _ h2,
            read_bytes_ok _ _ _ h3, read_bytes_short _ _ _ h4, header_err]
      · simp only [LLDwarf_ParseArangeTableHeader, read_u32, read_u16, read_u64,
          read_bytes_ok _ _ _ h1, beq_iff_eq, h64, if_true, read_bytes_ok _ _ _ h2,
          read_bytes_short _ _ _ h3, header_err]
    · simp only [LLDwarf_ParseArangeTableHeader, read_u32, read_u64,
        read_bytes_ok _ _ _ h1, beq_iff_eq, h64, if_true, read_bytes_short _ _ _ h2,
        header_err]
  · simp only [LLDwarf_ParseArangeTableHeader, read_u32, read_bytes_short _ _ _ h1,
      header_err]

theorem header_first_short (buffer : Py_buffer) (offset : Nat)
    (h : ¬ offset + 4 ≤ buffer.length) :
    (LLDwarf_ParseArangeTableHeader buffer offset).1 =
      .error (.Truncated (some "address range table header is truncated")) := by
  simp only [LLDwarf_ParseArangeTableHeader, read_u32, read_bytes_short _ _ _ h, header_err]

/-- C2. A 32-bit header: when at least 12 bytes remain at the offset and the first four,
read as a little-endian 32-bit value, are not `0xffffffff`, the header decoder succeeds
with `is_64_bit = false`, `unit_length` that 32-bit value, `version` the 16-bit value at
`offset + 4`, `debug_info_offset` the 32-bit value at `offset + 6` (so below `2^32`),
`address_size` the byte at `offset + 10`, `segment_size` the byte at `offset + 11`, and
leaves the offset at `offset + 12`. -/
theorem ParseArangeTableHeader_32_bit (buffer : Py_buffer) (offset : Nat)
    (hlen : offset + 12 ≤ buffer.length) (h32 : value_at buffer offset 4 ≠ 0xffffffff) :
    LLDwarf_ParseArangeTableHeader buffer offset =
        (.ok { unit_length := value_at buffer offset 4
               version := value_at buffer (offset + 4) 2
               debug_info_offset := value_at buffer (offset + 6) 4
               address_size := (buffer.getD (offset + 10) 0).val
               segment_size := (buffer.getD (offset + 11) 0).val
               is_64_bit := false }, offset + 12) ∧
      value_at buffer (offset + 6) 4 < 2 ^ 32 := by
  refine ⟨?_, value_at_lt buffer (offset + 6) 4⟩
  rw [header_32_ok buffer offset hlen h32, value_at_one _ _ (by omega),
    value_at_one _ _ (by omega)]

/-- An instance of C2: unit length 44, version 2, debug-info offset 16, 8-byte addresses,
no segment selector. -/
theorem ParseArangeTableHeader_32_bit_witness :
    LLDwarf_ParseArangeTableHeader [0x2c, 0, 0, 0, 2, 0, 0x10, 0, 0, 0, 8, 0] 0 =
      (.ok { unit_length := 44, version := 2, debug_info_offset := 16, address_size := 8,
             segment_size := 0, is_64_bit := false }, 12) :=
  (ParseArangeTableHeader_32_bit [0x2c, 0, 0, 0, 2, 0, 0x10, 0, 0, 0, 8, 0] 0
    (by decide) (by decide)).1

/-- C3. A 64-bit header: when at least 24 bytes remain at the offset and the first four are
`0xffffffff`, the header decoder succeeds with `is_64_bit = true`, `unit_length` the 64-bit
value at `offset + 4`, `version` the 16-bit value at `offset + 12`, `debug_info_offset` the
64-bit value at `offset + 14`, `address_size` the byte at `offset + 22`, `segment_size` the
byte at `offset + 23`, and leaves the offset at `offset + 24`; `version` is below `2^16`
and the two sizes are single bytes, as in the 32-bit format. -/
theorem ParseArangeTableHeader_64_bit (buffer : Py_buffer) (offset : Nat)
    (hlen : offset + 24 ≤ buffer.length) (h64 : value_at buffer offset 4 = 0xffffffff) :
    LLDwarf_ParseArangeTableHeader buffer offset =
        (.ok { unit_length := value_at buffer (offset + 4) 8
               version := value_at buffer (offset + 12) 2
               debug_info_offset := value_at buffer (offset + 14) 8
               address_size := (buffer.getD (offset + 22) 0).val
               segment_size := (buffer.getD (offset + 23) 0).val
               is_64_bit := true }, offset + 24) ∧
      value_at buffer (offset + 4) 8 < 2 ^ 64 ∧ value_at buffer (offset + 12) 2 < 2 ^ 16 ∧
      value_at buffer (offset + 14) 8 < 2 ^ 64 ∧
      (buffer.getD (offset + 22) 0).val < 2 ^ 8 ∧ (buffer.getD (offset + 23) 0).val < 2 ^ 8 := by
  refine ⟨?_, value_at_lt buffer (offset + 4) 8, value_at_lt buffer (offset + 12) 2,
    value_at_lt buffer (offset + 14) 8, (buffer.getD (offset + 22) 0).isLt,
    (buffer.getD (offset + 23) 0).isLt⟩
  rw [header_64_ok buffer offset hlen h64, value_at_one _ _ (by omega),
    value_at_one _ _ (by omega)]

/-- An instance of C3: the escape `0xffffffff`, unit length `0x100000034`, version 2,
debug-info offset `0x200000010`, 8-byte addresses, no segment selector. -/
theorem ParseArangeTableHeader_64_bit_witness :
    LLDwarf_ParseArangeTableHeader
        [0xff, 0xff, 0xff, 0xff, 0x34, 0, 0, 0, 1, 0, 0, 0, 2, 0,
         0x10, 0, 0, 0, 2, 0, 0, 0, 8, 0] 0 =
      (.ok { unit_length := 0x100000034, version := 2, debug_info_offset := 0x200000010,
             address_size := 8, segment_size := 0, is_64_bit := true }, 24) :=
  (ParseArangeTableHeader_64_bit
    [0xff, 0xff, 0xff, 0xff, 0x34, 0, 0, 0, 1, 0, 0, 0, 2, 0,
     0x10, 0, 0, 0, 2, 0, 0, 0, 8, 0] 0 (by decide) (by decide)).1

/-- C4. A truncated header: when the first four bytes cannot be read, or they are not
`0xffffffff` and fewer than 12 bytes remain, or they are `0xffffffff` and fewer than 24
bytes remain, the header decoder fails with `Truncated` and the message
"address range table header is truncated"; it returns no header. -/
theorem ParseArangeTableHeader_truncated (buffer : Py_buffer) (offset : Nat)
    (h : ¬ offset + 4 ≤ buffer.length ∨
      (value_at buffer offset 4 ≠ 0xffffffff ∧ ¬ offset + 12 ≤ buffer.length) ∨
      (value_at buffer offset 4 = 0xffffffff ∧ ¬ offset + 24 ≤ buffer.length)) :
    (LLDwarf_ParseArangeTableHeader buffer offset).1 =
      .error (.Truncated (some "address range table header is truncated")) := by
  rcases h with h | ⟨h32, h⟩ | ⟨h64, h⟩
  · exact header_first_short buffer offset h
  · exact header_32_short buffer offset h32 h
  · exact header_64_short buffer offset h64 h

/-- An instance of C4: a 64-bit header cut after 23 of its 24 bytes. -/
theorem ParseArangeTableHeader_truncated_witness :
    (LLDwarf_ParseArangeTableHeader
        [0xff, 0xff, 0xff, 0xff, 0x34, 0, 0, 0, 1, 0, 0, 0, 2, 0,
         0x10, 0, 0, 0, 2, 0, 0, 0, 8] 0).1 =
      .error (.Truncated (some "address range table header is truncated")) :=
  ParseArangeTableHeader_truncated
    [0xff, 0xff, 0xff, 0xff, 0x34, 0, 0, 0, 1, 0, 0, 0, 2, 0,
     0x10, 0, 0, 0, 2, 0, 0, 0, 8] 0 (Or.inr (Or.inr ⟨by decide, by decide⟩))

theorem value_at_mid (a b c : List Byte) (n w : Nat) (hn : n = a.length)
    (hw : w = b.length) : value_at (a ++ b ++ c) n w = le_value b := by
  subst hn hw
  unfold value_at
  rw [List.append_assoc, List.drop_left, List.take_left]

theorem header_complete_iff (buffer : Py_buffer) (offset : Nat) :
    (∃ hdr o, LLDwarf_ParseArangeTableHeader buffer offset = (.ok hdr, o)) ↔
      header_complete buffer offset := by
  unfold header_complete
  by_cases h64 : value_at buffer offset 4 = 0xffffffff
  · rw [if_pos h64]
    constructor
    · rintro ⟨hdr, o, h⟩
      by_contra hc
      have := header_64_short buffer offset h64 hc
      rw [h] at this
      exact absurd this (by simp)
    · intro hlen
      exact ⟨_, _, header_64_ok buffer offset hlen h64⟩
  · rw [if_neg h64]
    constructor
    · rintro ⟨hdr, o, h⟩
      by_contra hc
      have := header_32_short buffer offset h64 hc
      rw [h] at this
      exact absurd this (by simp)
    · intro hlen
      exact ⟨_, _, header_32_ok buffer offset hlen h64⟩

theorem encode_header_length (hdr : ArangeTableHeader) :
    (encode_header hdr).length = if hdr.is_64_bit then 24 else 12 := by
  unfold encode_header
  split <;> simp [le_bytes_length]

theorem header_of_encode_header (hdr : ArangeTableHeader) (hfit : header_fits hdr)
    (pre post : List Byte) :
    LLDwarf_ParseArangeTableHeader (pre ++ encode_header hdr ++ post) pre.length =
      (.ok hdr, pre.length + (encode_header hdr).length) := by
  obtain ⟨hv, ha, hs, hrest⟩ := hfit
  rcases hdr with ⟨ul, v, dio, asz, ssz, is64⟩
  cases is64 with
  | false =>
    simp only [Bool.false_eq_true, if_false] at hrest
    obtain ⟨hul, hne, hdio⟩ := hrest
    have hlen : pre.length + 12 ≤ (pre ++ encode_header ⟨ul, v, dio, asz, ssz, false⟩ ++
        post).length := by
      simp [encode_header_length]
    have e0 : value_at (pre ++ encode_header ⟨ul, v, dio, asz, ssz, false⟩ ++ post)
        pre.length 4 = ul := by
      have e : pre ++ encode_header ⟨ul, v, dio, asz, ssz, false⟩ ++ post =
          pre ++ le_bytes 4 ul ++ (le_bytes 2 v ++ le_bytes 4 dio ++ le_bytes 1 asz ++
            le_bytes 1 ssz ++ post) := by simp [encode_header]
      rw [e, value_at_mid _ _ _ _ _ rfl (le_bytes_length _ _).symm, le_value_le_bytes _ _ hul]
    have e1 : value_at (pre ++ encode_header ⟨ul, v, dio, asz, ssz, false⟩ ++ post)
        (pre.length + 4) 2 = v := by
      have e : pre ++ encode_header ⟨ul, v, dio, asz, ssz, false⟩ ++ post =
          (pre ++ le_bytes 4 ul) ++ le_bytes 2 v ++ (le_bytes 4 dio ++ le_bytes 1 asz ++
            le_bytes 1 ssz ++ post) := by simp [encode_header]
      rw [e, value_at_mid _ _ _ _ _ (by simp [le_bytes_length]) (le_bytes_length _ _).symm,
        le_value_le_bytes _ _ hv]
    have e2 : value_at (pre ++ encode_header ⟨ul, v, dio, asz, ssz, false⟩ ++ post)
        (pre.length + 6) 4 = dio := by
      have e : pre ++ encode_header ⟨ul, v, dio, asz, ssz, false⟩ ++ post =
          (pre ++ le_bytes 4 ul ++ le_bytes 2 v) ++ le_bytes 4 dio ++ (le_bytes 1 asz ++
            le_bytes 1 ssz ++ post) := by simp [encode_header]
      rw [e, value_at_mid _ _ _ _ _ (by simp [le_bytes_length]) (le_bytes_length _ _).symm,
        le_value_le_bytes _ _ hdio]
    have e3 : value_at (pre ++ encode_header ⟨ul, v, dio, asz, ssz, false⟩ ++ post)
        (pre.length + 10) 1 = asz := by
      have e : pre ++ encode_header ⟨ul, v, dio, asz, ssz, false⟩ ++ post =
          (pre ++ le_bytes 4 ul ++ le_bytes 2 v ++ le_bytes 4 dio) ++ le_bytes 1 asz ++
            (le_bytes 1 ssz ++ post) := by simp [encode_header]
      rw [e, value_at_mid _ _ _ _ _ (by simp [le_bytes_length]) (le_bytes_length _ _).symm,
        le_value_le_bytes _ _ ha]
    have e4 : value_at (pre ++ encode_header ⟨ul, v, dio, asz, ssz, false⟩ ++ post)
        (pre.length + 11) 1 = ssz := by
      have e : pre ++ encode_header ⟨ul, v, dio, asz, ssz, false⟩ ++ post =
          (pre ++ le_bytes 4 ul ++ le_bytes 2 v ++ le_bytes 4 dio ++ le_bytes 1 asz) ++
            le_bytes 1 ssz ++ post := by simp [encode_header]
      rw [e, value_at_mid _ _ _ _ _ (by simp [le_bytes_length]) (le_bytes_length _ _).symm,
        le_value_le_bytes _ _ hs]
    rw [header_32_ok _ _ hlen (by rw [e0]; exact hne), e0, e1, e2, e3, e4,
      encode_header_length]
    simp
  | true =>
    simp only [if_true] at hrest
    obtain ⟨hul, hdio⟩ := hrest
    have hlen : pre.length + 24 ≤ (pre ++ encode_header ⟨ul, v, dio, asz, ssz, true⟩ ++
        post).length := by
      simp [encode_header_length]
    have e0 : value_at (pre ++ encode_header ⟨ul, v, dio, asz, ssz, true⟩ ++ post)
        pre.length 4 = 0xffffffff := by
      have e : pre ++ encode_header ⟨ul, v, dio, asz, ssz, true⟩ ++ post =
          pre ++ le_bytes 4 0xffffffff ++ (le_bytes 8 ul ++ le_bytes 2 v ++ le_bytes 8 dio ++
            le_bytes 1 asz ++ le_bytes 1 ssz ++ post) := by simp [encode_header]
      rw [e, value_at_mid _ _ _ _ _ rfl (le_bytes_length _ _).symm,
        le_value_le_bytes _ _ (by norm_num)]
    have e1 : value_at (pre ++ encode_header ⟨ul, v, dio, asz, ssz, true⟩ ++ post)
        (pre.length + 4) 8 = ul := by
      have e : pre ++ encode_header ⟨ul, v, dio, asz, ssz, true⟩ ++ post =
          (pre ++ le_bytes 4 0xffffffff) ++ le_bytes 8 ul ++ (le_bytes 2 v ++ le_bytes 8 dio ++
            le_bytes 1 asz ++ le_bytes 1 ssz ++ post) := by simp [encode_header]
      rw [e, value_at_mid _ _ _ _ _ (by simp [le_bytes_length]) (le_bytes_length _ _).symm,
        le_value_le_bytes _ _ hul]
    have e2 : value_at (pre ++ encode_header ⟨ul, v, dio, asz, ssz, true⟩ ++ post)
        (pre.length + 12) 2 = v := by
      have e : pre ++ encode_header ⟨ul, v, dio, asz, ssz, true⟩ ++ post =
          (pre ++ le_bytes 4 0xffffffff ++ le_bytes 8 ul) ++ le_bytes 2 v ++ (le_bytes 8 dio ++
            le_bytes 1 asz ++ le_bytes 1 ssz ++ post) := by simp [encode_header]
      rw [e, value_at_mid _ _ _ _ _ (by simp [le_bytes_length]) (le_bytes_length _ _).symm,
        le_value_le_bytes _ _ hv]
    have e3 : value_at (pre ++ encode_header ⟨ul, v, dio, asz, ssz, true⟩ ++ post)
        (pre.length + 14) 8 = dio := by
      have e : pre ++ encode_header ⟨ul, v, dio, asz, ssz, true⟩ ++ post =
          (pre ++ le_bytes 4 0xffffffff ++ le_bytes 8 ul ++ le_bytes 2 v) ++ le_bytes 8 dio ++
            (le_bytes 1 asz ++ le_bytes 1 ssz ++ post) := by simp [encode_header]
      rw [e, value_at_mid _ _ _ _ _ (by simp [le_bytes_length]) (le_bytes_length _ _).symm,
        le_value_le_bytes _ _ hdio]
    have e4 : value_at (pre ++ encode_header ⟨ul, v, dio, asz, ssz, true⟩ ++ post)
        (pre.length + 22) 1 = asz := by
      have e : pre ++ encode_header ⟨ul, v, dio, asz, ssz, true⟩ ++ post =
          (pre ++ le_bytes 4 0xffffffff ++ le_bytes 8 ul ++ le_bytes 2 v ++ le_bytes 8 dio) ++
            le_bytes 1 asz ++ (le_bytes 1 ssz ++ post) := by simp [encode_header]
      rw [e, value_at_mid _ _ _ _ _ (by simp [le_bytes_length]) (le_bytes_length _ _).symm,
        le_value_le_bytes _ _ ha]
    have e5 : value_at (pre ++ encode_header ⟨ul, v, dio, asz, ssz, true⟩ ++ post)
        (pre.length + 23) 1 = ssz := by
      have e : pre ++ encode_header ⟨ul, v, dio, asz, ssz, true⟩ ++ post =
          (pre ++ le_bytes 4 0xffffffff ++ le_bytes 8 ul ++ le_bytes 2 v ++ le_bytes 8 dio ++
            le_bytes 1 asz) ++ le_bytes 1 ssz ++ post := by simp [encode_header]
      rw [e, value_at_mid _ _ _ _ _ (by simp [le_bytes_length]) (le_bytes_length _ _).symm,
        le_value_le_bytes _ _ hs]
    rw [header_64_ok _ _ hlen e0, e1, e2, e3, e4, e5, encode_header_length]
    simp

/-! ## What a successful decode has read -/

theorem take_drop_congr (b1 b2 : List Byte) (n i w : Nat) (h : b1.take n = b2.take n)
    (hle : i + w ≤ n) : (b1.drop i).take w = (b2.drop i).take w := by
  have e : ∀ b : List Byte, (b.drop i).take w = ((b.take n).take (i + w)).drop i := by
    intro b
    rw [List.take_take, Nat.min_eq_left hle, List.take_drop]
  rw [e b1, e b2, h]

theorem record_of_bytes_congr (segment_size address_size : Nat) (b1 b2 : List Byte)
    (h : b1.take (segment_size + 2 * address_size) = b2.take (segment_size + 2 * address_size)) :
    record_of_bytes segment_size address_size b1 =
      record_of_bytes segment_size address_size b2 := by
  have h0 := take_drop_congr b1 b2 _ 0 segment_size h (by omega)
  have h1 := take_drop_congr b1 b2 _ segment_size address_size h (by omega)
  have h2 := take_drop_congr b1 b2 _ (segment_size + address_size) address_size h (by omega)
  simp only [List.drop_zero] at h0
  simp only [record_of_bytes, h0, h1, h2]

theorem record_of_bytes_fits (segment_size address_size : Nat) (bytes : List Byte) :
    fits segment_size address_size (record_of_bytes segment_size address_size bytes) := by
  have key : ∀ (l : List Byte) (w : Nat), le_value (l.take w) < 256 ^ w := by
    intro l w
    have h := le_value_lt (l.take w)
    exact lt_of_lt_of_le h (Nat.pow_le_pow_right (by decide) (by simp))
  exact ⟨key _ _, key _ _, key _ _⟩

theorem loop_ok_offset (buffer : Py_buffer) (segment_size address_size : Nat)
    (hs : segment_size = 0 ∨ segment_size = 4 ∨ segment_size = 8)
    (ha : address_size = 4 ∨ address_size = 8)
    (fuel offset : Nat) (arange_table records : List AddressRange) (p : Nat)
    (h : ParseArangeTable_loop fuel buffer offset segment_size address_size arange_table =
      some (.ok records, p)) :
    ∃ n, records.length = arange_table.length + n ∧
      p = offset + (n + 1) * (segment_size + 2 * address_size) ∧ p ≤ buffer.length := by
  induction fuel generalizing offset arange_table with
  | zero => simp [ParseArangeTable_loop] at h
  | succ m ih =>
    simp only [ParseArangeTable_loop] at h
    by_cases hfit : offset + (segment_size + 2 * address_size) ≤ buffer.length
    · rw [iteration_fits _ _ _ _ hs ha hfit] at h
      by_cases hz : record_of_bytes segment_size address_size (buffer.drop offset) = ⟨0, 0, 0⟩
      · rw [if_pos hz] at h
        simp only [Option.some.injEq, Prod.mk.injEq, Except.ok.injEq] at h
        refine ⟨0, by rw [← h.1]; rfl, by rw [← h.2]; ring, by rw [← h.2]; exact hfit⟩
      · rw [if_neg hz] at h
        obtain ⟨n, h1, h2, h3⟩ := ih _ _ h
        refine ⟨n + 1, ?_, ?_, h3⟩
        · rw [h1, List.length_append, List.length_singleton]
          omega
        · rw [h2]
          ring
    · obtain ⟨o, ho⟩ := iteration_short _ _ _ _ hs ha hfit
      rw [ho] at h
      simp at h

theorem loop_fits (buffer : Py_buffer) (segment_size address_size : Nat)
    (hs : segment_size = 0 ∨ segment_size = 4 ∨ segment_size = 8)
    (ha : address_size = 4 ∨ address_size = 8)
    (fuel offset : Nat) (arange_table records : List AddressRange) (p : Nat)
    (h : ParseArangeTable_loop fuel buffer offset segment_size address_size arange_table =
      some (.ok records, p))
    (hacc : ∀ r ∈ arange_table, fits segment_size address_size r) :
    ∀ r ∈ records, fits segment_size address_size r := by
  induction fuel generalizing offset arange_table with
  | zero => simp [ParseArangeTable_loop] at h
  | succ m ih =>
    simp only [ParseArangeTable_loop] at h
    by_cases hfit : offset + (segment_size + 2 * address_size) ≤ buffer.length
    · rw [iteration_fits _ _ _ _ hs ha hfit] at h
      by_cases hz : record_of_bytes segment_size address_size (buffer.drop offset) = ⟨0, 0, 0⟩
      · rw [if_pos hz] at h
        simp only [Option.some.injEq, Prod.mk.injEq, Except.ok.injEq] at h
        rw [← h.1]
        exact hacc
      · rw [if_neg hz] at h
        refine ih _ _ h ?_
        intro r hr
        rcases List.mem_append.mp hr with hr | hr
        · exact hacc r hr
        · rw [List.mem_singleton.mp hr]
          exact record_of_bytes_fits _ _ _
    · obtain ⟨o, ho⟩ := iteration_short _ _ _ _ hs ha hfit
      rw [ho] at h
      simp at h

theorem loop_frame (buffer buffer2 : Py_buffer) (segment_size address_size : Nat)
    (hs : segment_size = 0 ∨ segment_size = 4 ∨ segment_size = 8)
    (ha : address_size = 4 ∨ address_size = 8)
    (fuel offset : Nat) (arange_table records : List AddressRange) (p : Nat)
    (h : ParseArangeTable_loop fuel buffer offset segment_size address_size arange_table =
      some (.ok records, p))
    (hsame : buffer2.take p = buffer.take p) :
    ParseArangeTable_loop fuel buffer2 offset segment_size address_size arange_table =
      some (.ok records, p) := by
  induction fuel generalizing offset arange_table with
  | zero => simp [ParseArangeTable_loop] at h
  | succ m ih =>
    obtain ⟨n, -, hp, hple⟩ := loop_ok_offset _ _ _ hs ha _ _ _ _ _ h
    have hp2 : offset + (segment_size + 2 * address_size) ≤ p := by
      rw [hp]
      have : (n + 1) * (segment_size + 2 * address_size) =
          n * (segment_size + 2 * address_size) + (segment_size + 2 * address_size) := by ring
      omega
    have hlen2 : p ≤ buffer2.length := by
      have hl := congrArg List.length hsame
      simp only [List.length_take] at hl
      omega
    have hfit : offset + (segment_size + 2 * address_size) ≤ buffer.length := by omega
    have hfit2 : offset + (segment_size + 2 * address_size) ≤ buffer2.length := by omega
    have hrec : record_of_bytes segment_size address_size (buffer2.drop offset) =
        record_of_bytes segment_size address_size (buffer.drop offset) :=
      record_of_bytes_congr _ _ _ _
        (take_drop_congr buffer2 buffer p offset _ hsame hp2)
    simp only [ParseArangeTable_loop] at h ⊢
    rw [iteration_fits _ _ _ _ hs ha hfit] at h
    rw [iteration_fits _ _ _ _ hs ha hfit2, hrec]
    by_cases hz : record_of_bytes segment_size address_size (buffer.drop offset) = ⟨0, 0, 0⟩
    · rw [if_pos hz] at h ⊢
      exact h
    · rw [if_neg hz] at h ⊢
      exact ih _ _ h

theorem ok_sizes_valid (buffer : Py_buffer) (offset : Nat) (segment_size address_size : Int)
    (records : List AddressRange) (p : Nat)
    (h : LLDwarf_ParseArangeTable buffer offset segment_size address_size =
      some (.ok records, p)) :
    ∃ s a : Nat, (s = 0 ∨ s = 4 ∨ s = 8) ∧ (a = 4 ∨ a = 8) ∧ segment_size = s ∧
      address_size = a := by
  by_cases hv : (segment_size = 0 ∨ segment_size = 4 ∨ segment_size = 8) ∧
      (address_size = 4 ∨ address_size = 8)
  · exact valid_sizes_nat _ _ hv
  · obtain ⟨e, o, hit⟩ := iteration_unsupported buffer offset segment_size address_size hv
    simp [LLDwarf_ParseArangeTable, ParseArangeTable_loop, hit] at h

theorem decode_encode_body (segment_size address_size : Nat)
    (hs : segment_size = 0 ∨ segment_size = 4 ∨ segment_size = 8)
    (ha : address_size = 4 ∨ address_size = 8)
    (records : List AddressRange)
    (hrec : ∀ r ∈ records, fits segment_size address_size r ∧ r ≠ ⟨0, 0, 0⟩)
    (pre post : List Byte) :
    LLDwarf_ParseArangeTable (pre ++ encode_body segment_size address_size records ++ post)
        pre.length segment_size address_size =
      some (.ok records,
        pre.length + (records.length + 1) * (segment_size + 2 * address_size)) := by
  have h := loop_encoded segment_size address_size hs ha records hrec pre post []
    (records.length + 1) (Nat.le_refl _)
  exact ParseArangeTable_eq_loop _ _ _ _ _ _ (by simpa using h)

/-- C11. The header decoder validates nothing: it succeeds exactly when a complete header
is present (12 bytes, or 24 when the first four are `0xffffffff`), and every header whose
fields fit their widths, whatever the values of `unit_length`, `version`, `address_size`
and `segment_size`, is decoded back from its bytes. -/
theorem ParseArangeTableHeader_no_validation (buffer : Py_buffer) (offset : Nat) :
    ((∃ hdr o, LLDwarf_ParseArangeTableHeader buffer offset = (.ok hdr, o)) ↔
        header_complete buffer offset) ∧
      (¬ header_complete buffer offset ↔
        (LLDwarf_ParseArangeTableHeader buffer offset).1 =
          .error (.Truncated (some "address range table header is truncated"))) ∧
      ∀ hdr : ArangeTableHeader, header_fits hdr → ∀ pre post : List Byte,
        LLDwarf_ParseArangeTableHeader (pre ++ encode_header hdr ++ post) pre.length =
          (.ok hdr, pre.length + (encode_header hdr).length) := by
  refine ⟨header_complete_iff buffer offset, ?_, fun hdr hfit pre post =>
    header_of_encode_header hdr hfit pre post⟩
  constructor
  · intro hc
    unfold header_complete at hc
    by_cases h64 : value_at buffer offset 4 = 0xffffffff
    · rw [if_pos h64] at hc
      exact header_64_short buffer offset h64 hc
    · rw [if_neg h64] at hc
      exact header_32_short buffer offset h64 hc
  · intro herr hc
    obtain ⟨hdr, o, hok⟩ := (header_complete_iff buffer offset).mpr hc
    rw [hok] at herr
    exact absurd herr (by simp)

/-- The example of C11: a header with `address_size = 2` and `segment_size = 3`, sizes
the body decoder rejects, is decoded. -/
theorem ParseArangeTableHeader_no_validation_witness :
    LLDwarf_ParseArangeTableHeader [0x2c, 0, 0, 0, 2, 0, 0x10, 0, 0, 0, 2, 3] 0 =
      (.ok { unit_length := 44, version := 2, debug_info_offset := 16, address_size := 2,
             segment_size := 3, is_64_bit := false }, 12) :=
  (ParseArangeTableHeader_no_validation [] 0).2.2
    { unit_length := 44, version := 2, debug_info_offset := 16, address_size := 2,
      segment_size := 3, is_64_bit := false } (by simp [header_fits]) [] []

/-- C12. Tables decode back to back. For valid sizes, when a terminated body `A` is
immediately followed by a terminated body `B`, decoding at the start returns `A` and an
offset at which a second decode returns `B` and the offset past the terminator of `B`.
The same with a header before each body, its sizes taken from the header: header, body,
header, body are decoded in turn, each from the offset the previous one returned. -/
theorem ParseArangeTable_back_to_back (sA aA sB aB : Nat)
    (hsA : sA = 0 ∨ sA = 4 ∨ sA = 8) (haA : aA = 4 ∨ aA = 8)
    (hsB : sB = 0 ∨ sB = 4 ∨ sB = 8) (haB : aB = 4 ∨ aB = 8)
    (A B : List AddressRange)
    (hA : ∀ r ∈ A, fits sA aA r ∧ r ≠ ⟨0, 0, 0⟩)
    (hB : ∀ r ∈ B, fits sB aB r ∧ r ≠ ⟨0, 0, 0⟩)
    (pre post : List Byte) :
    (LLDwarf_ParseArangeTable (pre ++ encode_body sA aA A ++ encode_body sB aB B ++ post)
          pre.length sA aA =
        some (.ok A, pre.length + (A.length + 1) * (sA + 2 * aA)) ∧
      LLDwarf_ParseArangeTable (pre ++ encode_body sA aA A ++ encode_body sB aB B ++ post)
          (pre.length + (A.length + 1) * (sA + 2 * aA)) sB aB =
        some (.ok B, pre.length + (A.length + 1) * (sA + 2 * aA) +
          (B.length + 1) * (sB + 2 * aB))) ∧
    ∀ hdrA hdrB : ArangeTableHeader, header_fits hdrA → header_fits hdrB →
      hdrA.segment_size = sA → hdrA.address_size = aA →
      hdrB.segment_size = sB → hdrB.address_size = aB →
      ∀ o1 o2 o3 o4 : Nat,
        o1 = pre.length + (encode_header hdrA).length →
        o2 = o1 + (A.length + 1) * (sA + 2 * aA) →
        o3 = o2 + (encode_header hdrB).length →
        o4 = o3 + (B.length + 1) * (sB + 2 * aB) →
        LLDwarf_ParseArangeTableHeader (pre ++ encode_header hdrA ++ encode_body sA aA A ++
            encode_header hdrB ++ encode_body sB aB B ++ post) pre.length = (.ok hdrA, o1) ∧
        LLDwarf_ParseArangeTable (pre ++ encode_header hdrA ++ encode_body sA aA A ++
            encode_header hdrB ++ encode_body sB aB B ++ post) o1
            hdrA.segment_size hdrA.address_size = some (.ok A, o2) ∧
        LLDwarf_ParseArangeTableHeader (pre ++ encode_header hdrA ++ encode_body sA aA A ++
            encode_header hdrB ++ encode_body sB aB B ++ post) o2 = (.ok hdrB, o3) ∧
        LLDwarf_ParseArangeTable (pre ++ encode_header hdrA ++ encode_body sA aA A ++
            encode_header hdrB ++ encode_body sB aB B ++ post) o3
            hdrB.segment_size hdrB.address_size = some (.ok B, o4) := by
  refine ⟨⟨?_, ?_⟩, ?_⟩
  · have h := decode_encode_body sA aA hsA haA A hA pre (encode_body sB aB B ++ post)
    simpa only [List.append_assoc] using h
  · have h := decode_encode_body sB aB hsB haB B hB (pre ++ encode_body sA aA A) post
    simpa only [List.length_append, encode_body_length] using h
  · intro hdrA hdrB hfA hfB e1 e2 e3 e4 o1 o2 o3 o4 ho1 ho2 ho3 ho4
    subst ho1 ho2 ho3 ho4
    rw [e1, e2, e3, e4]
    refine ⟨?_, ?_, ?_, ?_⟩
    · have h := header_of_encode_header hdrA hfA pre
        (encode_body sA aA A ++ encode_header hdrB ++ encode_body sB aB B ++ post)
      simpa only [List.append_assoc] using h
    · have h := decode_encode_body sA aA hsA haA A hA (pre ++ encode_header hdrA)
        (encode_header hdrB ++ encode_body sB aB B ++ post)
      simpa only [List.append_assoc, List.length_append] using h
    · have h := header_of_encode_header hdrB hfB
        (pre ++ encode_header hdrA ++ encode_body sA aA A) (encode_body sB aB B ++ post)
      simpa only [List.append_assoc, List.length_append, encode_body_length,
        Nat.add_assoc] using h
    · have h := decode_encode_body sB aB hsB haB B hB
        (pre ++ encode_header hdrA ++ encode_body sA aA A ++ encode_header hdrB) post
      simpa only [List.append_assoc, List.length_append, encode_body_length,
        Nat.add_assoc] using h

/-- An instance of C12: a body with 8-byte addresses and no segment, then a body with
4-byte segments and addresses. -/
theorem ParseArangeTable_back_to_back_witness :
    LLDwarf_ParseArangeTable
        [0x00, 0x10, 0, 0, 0, 0, 0, 0, 0x20, 0, 0, 0, 0, 0, 0, 0,
         0, 0, 0, 0, 0, 0, 0, 0, 0, 0, 0, 0, 0, 0, 0, 0,
         1, 0, 0, 0, 0x00, 0x20, 0, 0, 0x10, 0, 0, 0,
         0, 0, 0, 0, 0, 0, 0, 0, 0, 0, 0, 0] 0 0 8 =
        some (.ok [⟨0, 0x1000, 0x20⟩], 32) ∧
      LLDwarf_ParseArangeTable
        [0x00, 0x10, 0, 0, 0, 0, 0, 0, 0x20, 0, 0, 0, 0, 0, 0, 0,
         0, 0, 0, 0, 0, 0, 0, 0, 0, 0, 0, 0, 0, 0, 0, 0,
         1, 0, 0, 0, 0x00, 0x20, 0, 0, 0x10, 0, 0, 0,
         0, 0, 0, 0, 0, 0, 0, 0, 0, 0, 0, 0] 32 4 4 =
        some (.ok [⟨1, 0x2000, 0x10⟩], 56) :=
  (ParseArangeTable_back_to_back 0 8 4 4 (Or.inl rfl) (Or.inr rfl) (Or.inr (Or.inl rfl))
    (Or.inl rfl) [⟨0, 0x1000, 0x20⟩] [⟨1, 0x2000, 0x10⟩] (by simp [fits]) (by simp [fits])
    [] []).1

/-- C13. Decoding stops at the first terminator: when the decode succeeds and returns the
offset `p`, it returns the same records and the same offset on every buffer that agrees
with this one on the bytes before `p` (bytes after the terminator replaced, removed or
appended). -/
theorem ParseArangeTable_frame (buffer buffer2 : Py_buffer) (offset : Nat)
    (segment_size address_size : Int) (records : List AddressRange) (p : Nat)
    (h : LLDwarf_ParseArangeTable buffer offset segment_size address_size =
      some (.ok records, p))
    (hsame : buffer2.take p = buffer.take p) :
    LLDwarf_ParseArangeTable buffer2 offset segment_size address_size =
      some (.ok records, p) := by
  obtain ⟨s, a, hs, ha, rfl, rfl⟩ := ok_sizes_valid _ _ _ _ _ _ h
  exact ParseArangeTable_eq_loop _ _ _ _ _ _
    (loop_frame buffer buffer2 s a hs ha _ offset [] records p h hsame)

/-- An instance of C13: the bytes after the terminator are replaced and more are added. -/
theorem ParseArangeTable_frame_witness :
    LLDwarf_ParseArangeTable
        [0x00, 0x10, 0, 0, 0x20, 0, 0, 0, 0, 0, 0, 0, 0, 0, 0, 0, 0xaa, 0xbb, 0xcc] 0 0 4 =
      some (.ok [⟨0, 0x1000, 0x20⟩], 16) :=
  ParseArangeTable_frame
    [0x00, 0x10, 0, 0, 0x20, 0, 0, 0, 0, 0, 0, 0, 0, 0, 0, 0, 1]
    [0x00, 0x10, 0, 0, 0x20, 0, 0, 0, 0, 0, 0, 0, 0, 0, 0, 0, 0xaa, 0xbb, 0xcc] 0 0 4
    [⟨0, 0x1000, 0x20⟩] 16 (by decide) (by decide)

/-- C14. Field widths bound the decoded values: in every successful decode each returned
record has `segment = 0` when `segment_size = 0`, `segment < 2^32` when `segment_size = 4`,
`address < 2^32` and `length < 2^32` when `address_size = 4` (32-bit fields are
zero-extended), and 64-bit values when the size is 8. -/
theorem ParseArangeTable_field_widths (buffer : Py_buffer) (offset : Nat)
    (segment_size address_size : Int) (records : List AddressRange) (p : Nat)
    (h : LLDwarf_ParseArangeTable buffer offset segment_size address_size =
      some (.ok records, p)) :
    ∀ r ∈ records,
      (segment_size = 0 → r.segment = 0) ∧ (segment_size = 4 → r.segment < 2 ^ 32) ∧
      (segment_size = 8 → r.segment < 2 ^ 64) ∧
      (address_size = 4 → r.address < 2 ^ 32 ∧ r.length < 2 ^ 32) ∧
      (address_size = 8 → r.address < 2 ^ 64 ∧ r.length < 2 ^ 64) := by
  obtain ⟨s, a, hs, ha, rfl, rfl⟩ := ok_sizes_valid _ _ _ _ _ _ h
  intro r hr
  obtain ⟨h1, h2, h3⟩ := loop_fits buffer s a hs ha _ offset [] records p h (by simp) r hr
  refine ⟨?_, ?_, ?_, ?_, ?_⟩
  · intro e
    have e2 : s = 0 := by exact_mod_cast e
    subst e2
    simpa using h1
  · intro e
    have e2 : s = 4 := by exact_mod_cast e
    subst e2
    simpa using h1
  · intro e
    have e2 : s = 8 := by exact_mod_cast e
    subst e2
    simpa using h1
  · intro e
    have e2 : a = 4 := by exact_mod_cast e
    subst e2
    exact ⟨by simpa using h2, by simpa using h3⟩
  · intro e
    have e2 : a = 8 := by exact_mod_cast e
    subst e2
    exact ⟨by simpa using h2, by simpa using h3⟩

/-- An instance of C14: a 32-bit record whose fields have their top bit set is returned
as the unsigned values. -/
theorem ParseArangeTable_field_widths_witness :
    LLDwarf_ParseArangeTable
        [0xff, 0xff, 0xff, 0xff, 0, 0, 0, 0x80, 0xfe, 0xff, 0xff, 0xff,
         0, 0, 0, 0, 0, 0, 0, 0, 0, 0, 0, 0] 0 4 4 =
        some (.ok [⟨0xffffffff, 0x80000000, 0xfffffffe⟩], 24) ∧
      (⟨0xffffffff, 0x80000000, 0xfffffffe⟩ : AddressRange).segment < 2 ^ 32 ∧
      (⟨0xffffffff, 0x80000000, 0xfffffffe⟩ : AddressRange).address < 2 ^ 32 ∧
      (⟨0xffffffff, 0x80000000, 0xfffffffe⟩ : AddressRange).length < 2 ^ 32 :=
  ⟨by decide,
    ((ParseArangeTable_field_widths
      [0xff, 0xff, 0xff, 0xff, 0, 0, 0, 0x80, 0xfe, 0xff, 0xff, 0xff,
       0, 0, 0, 0, 0, 0, 0, 0, 0, 0, 0, 0] 0 4 4
      [⟨0xffffffff, 0x80000000, 0xfffffffe⟩] 24 (by decide)
      ⟨0xffffffff, 0x80000000, 0xfffffffe⟩ (List.mem_singleton.mpr rfl)).2.1 rfl),
    ((ParseArangeTable_field_widths
      [0xff, 0xff, 0xff, 0xff, 0, 0, 0, 0x80, 0xfe, 0xff, 0xff, 0xff,
       0, 0, 0, 0, 0, 0, 0, 0, 0, 0, 0, 0] 0 4 4
      [⟨0xffffffff, 0x80000000, 0xfffffffe⟩] 24 (by decide)
      ⟨0xffffffff, 0x80000000, 0xfffffffe⟩ (List.mem_singleton.mpr rfl)).2.2.2.1 rfl)⟩

/-- C15. The bytes consumed are determined by the number of records returned: in every
successful decode the returned offset is the start offset plus
`(number of records + 1) * (segment_size + 2*address_size)`, so the number of records is at
most `(remaining bytes) / (segment_size + 2*address_size) - 1`. -/
theorem ParseArangeTable_consumed (buffer : Py_buffer) (offset : Nat)
    (segment_size address_size : Int) (records : List AddressRange) (p : Nat)
    (h : LLDwarf_ParseArangeTable buffer offset segment_size address_size =
      some (.ok records, p)) :
    (p : Int) = offset + (records.length + 1) * (segment_size + 2 * address_size) ∧
      (records.length : Int) ≤
        ((buffer.length - offset : Nat) : Int) / (segment_size + 2 * address_size) - 1 := by
  obtain ⟨s, a, hs, ha, rfl, rfl⟩ := ok_sizes_valid _ _ _ _ _ _ h
  obtain ⟨n, hn, hp, hple⟩ := loop_ok_offset buffer s a hs ha _ offset [] records p h
  simp only [List.length_nil, Nat.zero_add] at hn
  subst hn
  have hpos : 0 < s + 2 * a := by omega
  have hq : records.length + 1 ≤ (buffer.length - offset) / (s + 2 * a) := by
    rw [Nat.le_div_iff_mul_le hpos]
    omega
  have e : ((s : Int) + 2 * (a : Int)) = ((s + 2 * a : Nat) : Int) := by push_cast; ring
  constructor
  · rw [hp]
    push_cast
    ring
  · rw [e, ← Int.ofNat_ediv]
    have : ((records.length + 1 : Nat) : Int) ≤
        (((buffer.length - offset) / (s + 2 * a) : Nat) : Int) := by exact_mod_cast hq
    push_cast at this ⊢
    omega

/-- An instance of C15: two 16-byte records and the terminator in a 50-byte buffer. -/
theorem ParseArangeTable_consumed_witness :
    ((48 : Nat) : Int) = (0 : Nat) + (([⟨0, 0x1000, 0x20⟩, ⟨0, 0x2000, 0x10⟩] :
        List AddressRange).length + 1) * ((0 : Int) + 2 * 8) ∧
      ((([⟨0, 0x1000, 0x20⟩, ⟨0, 0x2000, 0x10⟩] : List AddressRange).length : Nat) : Int) ≤
        ((50 - 0 : Nat) : Int) / ((0 : Int) + 2 * 8) - 1 :=
  ParseArangeTable_consumed
    [0x00, 0x10, 0, 0, 0, 0, 0, 0, 0x20, 0, 0, 0, 0, 0, 0, 0,
     0x00, 0x20, 0, 0, 0, 0, 0, 0, 0x10, 0, 0, 0, 0, 0, 0, 0,
     0, 0, 0, 0, 0, 0, 0, 0, 0, 0, 0, 0, 0, 0, 0, 0, 7, 7] 0 0 8
    [⟨0, 0x1000, 0x20⟩, ⟨0, 0x2000, 0x10⟩] 48 (by decide)

end LLDwarf

namespace Drgn

/-! ## The re-entrancy flag -/

theorem lookup_SetItem (dict dict2 : PyDict) (key : String) (value : PyObject)
    (h : PyDict_SetItem dict key value = some dict2) : dict2.lookup key = some value := by
  simp only [PyDict_SetItem, Option.some.injEq] at h
  rw [← h]
  simp [List.lookup]

theorem set_drgn_in_python_of_true (ts : PyThreadState)
    (h : drgn_in_python_flag ts = some .Py_True) : set_drgn_in_python ts = (false, ts) := by
  unfold drgn_in_python_flag at h
  simp [set_drgn_in_python, PyThreadState_GetDict, PyUnicode_FromId, PyDict_GetItemWithError, h]

theorem set_drgn_in_python_true (ts : PyThreadState) (h : (set_drgn_in_python ts).1 = true) :
    drgn_in_python_flag ts ≠ some .Py_True ∧
      drgn_in_python_flag (set_drgn_in_python ts).2 = some .Py_True := by
  constructor
  · intro hflag
    rw [set_drgn_in_python_of_true ts hflag] at h
    exact absurd h (by simp)
  · simp only [set_drgn_in_python, PyThreadState_GetDict, PyUnicode_FromId,
      PyDict_GetItemWithError] at h ⊢
    split_ifs at h ⊢ with h1 h2
    simp [drgn_in_python_flag, PyDict_SetItem, List.lookup]

theorem clear_drgn_in_python_eq (ts : PyThreadState) :
    clear_drgn_in_python ts =
      { dict := (PyId_drgn_in_python, .Py_False) ::
          ts.dict.filter (fun kv => kv.1 ≠ PyId_drgn_in_python),
        curexc := ts.curexc } := by
  simp [clear_drgn_in_python, PyErr_Fetch, PyThreadState_GetDict, PyDict_SetItemId,
    PyDict_SetItem, PyErr_Restore]

/-- C19 as stated fails: with the flag unset and an exception pending, a first call
returns false (and clears the exception) and a second call, with no
`clear_drgn_in_python` between them, returns true. -/
theorem set_drgn_in_python_second_call_counterexample :
    (set_drgn_in_python ⟨[], some ⟨PyExc_ValueError, none, none⟩⟩).1 = false ∧
      (set_drgn_in_python
        (set_drgn_in_python ⟨[], some ⟨PyExc_ValueError, none, none⟩⟩).2).1 = true := by
  decide

/-- C19, amended. `set_drgn_in_python` returns true only if the flag was not `True`
beforehand, and when it returns true the flag is `True` afterwards; when the flag is
already `True` it returns false and changes nothing; so when the first of two calls with
no `clear_drgn_in_python` between them returns true, the second returns false.
`clear_drgn_in_python` sets the flag to `False` and leaves the pending exception as it
was. -/
theorem drgn_in_python_guard (ts : PyThreadState) :
    ((set_drgn_in_python ts).1 = true → drgn_in_python_flag ts ≠ some .Py_True) ∧
    ((set_drgn_in_python ts).1 = true →
      drgn_in_python_flag (set_drgn_in_python ts).2 = some .Py_True) ∧
    (drgn_in_python_flag ts = some .Py_True → set_drgn_in_python ts = (false, ts)) ∧
    ((set_drgn_in_python ts).1 = true →
      (set_drgn_in_python (set_drgn_in_python ts).2).1 = false) ∧
    drgn_in_python_flag (clear_drgn_in_python ts) = some .Py_False ∧
    (clear_drgn_in_python ts).curexc = ts.curexc := by
  refine ⟨fun h => (set_drgn_in_python_true ts h).1, fun h => (set_drgn_in_python_true ts h).2,
    set_drgn_in_python_of_true ts, ?_, ?_, ?_⟩
  · intro h
    rw [set_drgn_in_python_of_true _ (set_drgn_in_python_true ts h).2]
  · rw [clear_drgn_in_python_eq]
    simp [drgn_in_python_flag, List.lookup]
  · rw [clear_drgn_in_python_eq]

/-- An instance of C19: on a fresh thread the first call returns true and sets the flag,
so the second returns false. -/
theorem drgn_in_python_guard_witness :
    (set_drgn_in_python ⟨[], none⟩).1 = true ∧
      (set_drgn_in_python (set_drgn_in_python ⟨[], none⟩).2).1 = false :=
  ⟨by decide, (drgn_in_python_guard ⟨[], none⟩).2.2.2.1 (by decide)⟩

/-! ## From a host exception to an error -/

theorem c_str_empty : c_str "" = "" := rfl

theorem c_str_of_no_nul (s : String) (h : Char.ofNat 0 ∉ s.data) : c_str s = s := by
  unfold c_str
  have e : s.data.takeWhile (fun c => c ≠ Char.ofNat 0) = s.data := by
    rw [List.takeWhile_eq_self_iff]
    intro c hc
    have : c ≠ Char.ofNat 0 := fun hz => h (hz ▸ hc)
    simpa using this
  rw [e]

theorem from_python_nothing_pending (str_utf8 : PyObject → Except PyErr String)
    (ts : PyThreadState) :
    (drgn_error_from_python str_utf8 ts).1 = none ↔ ts.curexc = none := by
  rcases ts with ⟨dict, curexc⟩
  cases curexc with
  | none => simp [drgn_error_from_python, PyErr_Fetch]
  | some exc =>
    rcases exc with ⟨t, v, tb⟩
    simp only [drgn_error_from_python, PyErr_Fetch, PyThreadState_GetDict, PyDict_GetItemId]
    split_ifs
    · simp
    · cases v with
      | none => simp [c_str_empty]
      | some v =>
        cases hs : str_utf8 v with
        | error raised => simp [PyObject_Str_AsUTF8, hs]
        | ok text =>
          simp only [PyObject_Str_AsUTF8, hs]
          split_ifs <;> simp

theorem from_python_no_value (str_utf8 : PyObject → Except PyErr String)
    (dict : PyDict) (t : PyTypeObject) (tb : Option PyObject)
    (hflag : drgn_in_python_flag ⟨dict, some ⟨t, none, tb⟩⟩ ≠ some .Py_True) :
    drgn_error_from_python str_utf8 ⟨dict, some ⟨t, none, tb⟩⟩ =
      (some (.heap { code := .DRGN_ERROR_OTHER, errnum := 0, path := none,
                     message := .text (c_str t.tp_name) }), ⟨dict, none⟩) := by
  unfold drgn_in_python_flag at hflag
  simp [drgn_error_from_python, PyErr_Fetch, PyThreadState_GetDict, PyDict_GetItemId, hflag,
    drgn_error_create, c_str_empty]

theorem from_python_text (str_utf8 : PyObject → Except PyErr String)
    (dict : PyDict) (t : PyTypeObject) (v : PyObject) (tb : Option PyObject) (text : String)
    (hflag : drgn_in_python_flag ⟨dict, some ⟨t, some v, tb⟩⟩ ≠ some .Py_True)
    (hs : str_utf8 v = .ok text) :
    drgn_error_from_python str_utf8 ⟨dict, some ⟨t, some v, tb⟩⟩ =
      (some (.heap { code := .DRGN_ERROR_OTHER, errnum := 0, path := none,
                     message := .text (if c_str text ≠ "" then
                         c_str t.tp_name ++ ": " ++ c_str text
                       else c_str t.tp_name) }), ⟨dict, none⟩) := by
  unfold drgn_in_python_flag at hflag
  by_cases ht : c_str text = ""
  · simp [drgn_error_from_python, PyErr_Fetch, PyThreadState_GetDict, PyDict_GetItemId, hflag,
      drgn_error_create, PyObject_Str_AsUTF8, hs, ht]
  · simp [drgn_error_from_python, PyErr_Fetch, PyThreadState_GetDict, PyDict_GetItemId, hflag,
      drgn_error_format, PyObject_Str_AsUTF8, hs, ht]

theorem from_python_str_failed (str_utf8 : PyObject → Except PyErr String)
    (dict : PyDict) (t : PyTypeObject) (v : PyObject) (tb : Option PyObject) (raised : PyErr)
    (hflag : drgn_in_python_flag ⟨dict, some ⟨t, some v, tb⟩⟩ ≠ some .Py_True)
    (hs : str_utf8 v = .error raised) :
    drgn_error_from_python str_utf8 ⟨dict, some ⟨t, some v, tb⟩⟩ =
      (some (.heap { code := .DRGN_ERROR_OTHER, errnum := 0, path := none,
                     message := .text (c_str t.tp_name ++ ": <exception str() failed>") }),
        ⟨dict, some raised⟩) := by
  unfold drgn_in_python_flag at hflag
  simp [drgn_error_from_python, PyErr_Fetch, PyThreadState_GetDict, PyDict_GetItemId, hflag,
    drgn_error_format, PyObject_Str_AsUTF8, hs]

theorem from_python_text_with_nul :
    drgn_error_from_python (fun _ => .ok "ab\x00cd")
        ⟨[], some ⟨PyExc_ValueError, some (.object 1), none⟩⟩ =
      (some (.heap { code := .DRGN_ERROR_OTHER, errnum := 0, path := none,
                     message := .text "ValueError: ab" }), ⟨[], none⟩) ∧
    drgn_error_from_python (fun _ => .ok "\x00abcd")
        ⟨[], some ⟨PyExc_ValueError, some (.object 1), none⟩⟩ =
      (some (.heap { code := .DRGN_ERROR_OTHER, errnum := 0, path := none,
                     message := .text "ValueError" }), ⟨[], none⟩) := by
  decide

theorem from_python_in_callback (str_utf8 : PyObject → Except PyErr String)
    (ts : PyThreadState) (E : PyErr)
    (hflag : drgn_in_python_flag ts = some .Py_True) (hE : ts.curexc = some E) :
    drgn_error_from_python str_utf8 ts = (some .static_python, ts) := by
  unfold drgn_in_python_flag at hflag
  rcases ts with ⟨dict, curexc⟩
  simp only at hE hflag
  subst hE
  simp [drgn_error_from_python, PyErr_Fetch, PyThreadState_GetDict, PyDict_GetItemId, hflag,
    PyErr_Restore]

/-- C17. The failing input: outside a callback (flag unset), with a `ValueError` pending
whose value cannot be converted to a string. The error returned is
"ValueError: <exception str() failed>" with code `DRGN_ERROR_OTHER`, as the claim says,
but the error indicator is not empty afterwards: it holds the exception that the failed
conversion raised. -/
theorem drgn_error_from_python_str_failure :
    drgn_in_python_flag ⟨[], some ⟨PyExc_ValueError, some (.object 1), none⟩⟩ ≠
        some .Py_True ∧
      drgn_error_from_python
          (fun _ => .error ⟨PyExc_TypeError, some (.unicode "__str__ returned non-string"),
            none⟩)
          ⟨[], some ⟨PyExc_ValueError, some (.object 1), none⟩⟩ =
        (some (.heap { code := .DRGN_ERROR_OTHER, errnum := 0, path := none,
                       message := .text "ValueError: <exception str() failed>" }),
          ⟨[], some ⟨PyExc_TypeError, some (.unicode "__str__ returned non-string"),
            none⟩⟩) := by
  decide

/-- C18. Pass-through inside a callback: with the flag `True` and an exception `E` pending,
`drgn_error_from_python` returns the static `drgn_error_python` and leaves the thread state
as it was, `set_drgn_error` on that error returns `NULL`, changes nothing and destroys
nothing, so after `set_drgn_error(drgn_error_from_python())` exactly `E` is pending. -/
theorem python_callback_pass_through (str_utf8 : PyObject → Except PyErr String)
    (from_errno : PyTypeObject → Int → Option CString → PyErr)
    (ts : PyThreadState) (E : PyErr)
    (hflag : drgn_in_python_flag ts = some .Py_True) (hE : ts.curexc = some E) :
    drgn_error_from_python str_utf8 ts = (some .static_python, ts) ∧
      set_drgn_error from_errno .static_python ts =
        { ret := none, ts := ts, destroyed := false } ∧
      ∀ err ts2, drgn_error_from_python str_utf8 ts = (some err, ts2) →
        (set_drgn_error from_errno err ts2).ret = none ∧
        (set_drgn_error from_errno err ts2).ts = ts ∧
        (set_drgn_error from_errno err ts2).ts.curexc = some E ∧
        (set_drgn_error from_errno err ts2).destroyed = false := by
  have h1 := from_python_in_callback str_utf8 ts E hflag hE
  have h2 : set_drgn_error from_errno .static_python ts =
      { ret := none, ts := ts, destroyed := false } := by
    simp [set_drgn_error]
  refine ⟨h1, h2, ?_⟩
  intro err ts2 h
  rw [h1] at h
  simp only [Prod.mk.injEq, Option.some.injEq] at h
  rw [← h.1, ← h.2, h2]
  exact ⟨rfl, rfl, hE, rfl⟩

/-- An instance of C18: a `KeyError` raised inside a callback stays pending. -/
theorem python_callback_pass_through_witness :
    drgn_error_from_python (fun _ => .ok "boom")
        ⟨[("drgn_in_python", .Py_True)],
          some ⟨⟨"KeyError"⟩, some (.object 7), some (.object 8)⟩⟩ =
      (some .static_python,
        ⟨[("drgn_in_python", .Py_True)],
          some ⟨⟨"KeyError"⟩, some (.object 7), some (.object 8)⟩⟩) :=
  (python_callback_pass_through (fun _ => .ok "boom")
    (fun t errno filename => ⟨t, some (.os_error errno filename), none⟩)
    ⟨[("drgn_in_python", .Py_True)], some ⟨⟨"KeyError"⟩, some (.object 7), some (.object 8)⟩⟩
    ⟨⟨"KeyError"⟩, some (.object 7), some (.object 8)⟩ (by decide) rfl).1

/-! ## From an error to a host exception -/

end Drgn
